import Mathlib

/-!
Verification of the Tuplex host-to-engine ingestion core.

Shallow embedding of src/tuplex/python/src/PythonContext.cc: the type
lattice helpers (isSubOptionType, hasSuperOptionType), the sample
inferencer (buildRowTypeFromSamples), the fast encoders
(fastBoolParallelize, fastI64Parallelize, fastF64Parallelize,
fastStrParallelize, fastMixedSimpleTypeTupleTransfer), the dict path
(strDictParallelize), the slow path (parallelizeAnyType) and the
orchestrator (parallelize).

Modelling conventions:
* C++ double fractions (count / numSamples compared against the
  threshold) are modelled with exact rationals; for the comparisons made
  here the double arithmetic agrees with the exact one away from ties.
* CPython objects are an inductive PyObj; reference-count traffic is
  modelled by explicit counters threaded through the state, with one
  counter bump per Py_XINCREF / Py_XDECREF call in the source.
* std::map iteration order over python::Type keys and the isSubclass
  sort comparator live outside this translation unit; the histogram is
  therefore passed as a list in map iteration order (colTypes) plus a
  list in sorted order (sortedTypes), both carrying the same entries.
-/

namespace Tuplex

/-- Type lattice of the engine (python::Type): scalars, option, tuple,
list, dict, plus the special constants. -/
inductive PyType where
  | boolean  : PyType
  | i64      : PyType
  | f64      : PyType
  | str      : PyType
  | nullValue : PyType
  | pyobj    : PyType
  | unknown  : PyType
  | emptyDict : PyType
  | genericDict : PyType
  | option   : PyType → PyType
  | tuple    : List PyType → PyType
  | listT    : PyType → PyType
  | dict     : PyType → PyType → PyType
deriving Repr

namespace PyType

/-- Structural equality test on types (operator== of python::Type). -/
def beq : PyType → PyType → Bool
  | .boolean, .boolean => true
  | .i64, .i64 => true
  | .f64, .f64 => true
  | .str, .str => true
  | .nullValue, .nullValue => true
  | .pyobj, .pyobj => true
  | .unknown, .unknown => true
  | .emptyDict, .emptyDict => true
  | .genericDict, .genericDict => true
  | .option a, .option b => beq a b
  | .tuple as, .tuple bs => beqList as bs
  | .listT a, .listT b => beq a b
  | .dict k v, .dict k' v' => beq k k' && beq v v'
  | _, _ => false
where
  beqList : List PyType → List PyType → Bool
  | [], [] => true
  | a :: as, b :: bs => beq a b && beqList as bs
  | _, _ => false

theorem beq_iff_eq : ∀ (a b : PyType), (beq a b = true ↔ a = b) := by
  intro a b
  refine beq.induct (fun as bs => (beq.beqList as bs = true ↔ as = bs))
    (fun a b => (beq a b = true ↔ a = b)) ?_ ?_ ?_ ?_ ?_ ?_ ?_ ?_ ?_ ?_ ?_ ?_ ?_
    ?_ ?_ ?_ ?_ a b
  case _ => exact iff_of_true rfl rfl
  case _ => exact iff_of_true rfl rfl
  case _ => exact iff_of_true rfl rfl
  case _ => exact iff_of_true rfl rfl
  case _ => exact iff_of_true rfl rfl
  case _ => exact iff_of_true rfl rfl
  case _ => exact iff_of_true rfl rfl
  case _ => exact iff_of_true rfl rfl
  case _ => exact iff_of_true rfl rfl
  case _ =>
    intro a b ih
    exact ⟨fun h => congrArg PyType.option (ih.mp h),
      fun h => ih.mpr (PyType.option.inj h)⟩
  case _ =>
    intro as bs ih
    exact ⟨fun h => congrArg PyType.tuple (ih.mp h),
      fun h => ih.mpr (PyType.tuple.inj h)⟩
  case _ =>
    intro a b ih
    exact ⟨fun h => congrArg PyType.listT (ih.mp h),
      fun h => ih.mpr (PyType.listT.inj h)⟩
  case _ =>
    intro k v k' v' ihk ihv
    constructor
    · intro h
      have h' : (beq k k' && beq v v') = true := h
      rw [Bool.and_eq_true] at h'
      rw [ihk.mp h'.1, ihv.mp h'.2]
    · intro h
      obtain ⟨hk, hv⟩ := PyType.dict.inj h
      show (beq k k' && beq v v') = true
      rw [Bool.and_eq_true]
      exact ⟨ihk.mpr hk, ihv.mpr hv⟩
  case _ =>
    intro t x h1 h2 h3 h4 h5 h6 h7 h8 h9 h10 h11 h12 h13
    cases t <;> cases x <;>
      first
      | exact (h1 rfl rfl).elim
      | exact (h2 rfl rfl).elim
      | exact (h3 rfl rfl).elim
      | exact (h4 rfl rfl).elim
      | exact (h5 rfl rfl).elim
      | exact (h6 rfl rfl).elim
      | exact (h7 rfl rfl).elim
      | exact (h8 rfl rfl).elim
      | exact (h9 rfl rfl).elim
      | exact (h10 _ _ rfl rfl).elim
      | exact (h11 _ _ rfl rfl).elim
      | exact (h12 _ _ rfl rfl).elim
      | exact (h13 _ _ _ _ rfl rfl).elim
      | exact iff_of_false (fun h => Bool.noConfusion h)
          (fun h => PyType.noConfusion h)
  case _ => exact iff_of_true rfl rfl
  case _ =>
    intro a as b bs ih1 ih2
    constructor
    · intro h
      have h' : (beq a b && beq.beqList as bs) = true := h
      rw [Bool.and_eq_true] at h'
      rw [ih1.mp h'.1, ih2.mp h'.2]
    · intro h
      obtain ⟨hh, ht⟩ := List.cons.inj h
      show (beq a b && beq.beqList as bs) = true
      rw [Bool.and_eq_true]
      exact ⟨ih1.mpr hh, ih2.mpr ht⟩
  case _ =>
    intro t x h1 h2
    cases t <;> cases x <;>
      first
      | exact (h1 rfl rfl).elim
      | exact (h2 _ _ _ _ rfl rfl).elim
      | exact iff_of_false (fun h => Bool.noConfusion h)
          (fun h => List.noConfusion h)

instance : BEq PyType := ⟨beq⟩

instance : LawfulBEq PyType where
  eq_of_beq h := (beq_iff_eq _ _).mp h
  rfl := (beq_iff_eq _ _).mpr rfl

instance : DecidableEq PyType := fun a b =>
  decidable_of_iff _ (beq_iff_eq a b)

/-- Test for an Option type (python::Type::isOptionType).
Modelled from the spec: Option(T) is the nullable wrapper. -/
def isOptionType : PyType → Bool
  | .option _ => true
  | _ => false

/-- Element type of an Option (python::Type::getReturnType as used on
option types). Modelled from the spec; only ever applied under an
isOptionType guard in the source, so the value on other types is
irrelevant (unknown here). -/
def getReturnType : PyType → PyType
  | .option t => t
  | _ => .unknown

/-- Test for a tuple type (python::Type::isTupleType). Modelled from the
spec. -/
def isTupleType : PyType → Bool
  | .tuple _ => true
  | _ => false

/-- Parameter list of a tuple type (python::Type::parameters). Modelled
from the spec. -/
def parameters : PyType → List PyType
  | .tuple ts => ts
  | _ => []

/-- Option constructor (python::Type::makeOptionType). Modelled from the
spec: promotes T to Option(T). -/
def makeOptionType (t : PyType) : PyType := .option t

/-- Tuple constructor (python::Type::makeTupleType). Modelled from the
spec. -/
def makeTupleType (ts : List PyType) : PyType := .tuple ts

theorem option_ne_self (t : PyType) : PyType.option t ≠ t := by
  intro h
  have h' := congrArg sizeOf h
  simp at h'

end PyType

/-- Direct translation of isSubOptionType (PythonContext.cc lines
450-462): true when t1 can be considered a subtype of t2 in the context
of Option types. -/
def isSubOptionType : PyType → PyType → Bool
  | t1, t2 =>
    if PyType.beq t1 t2 then true
    else if t2.isOptionType &&
        (PyType.beq t1 t2.getReturnType || PyType.beq t1 .nullValue) then true
    else match t1, t2 with
      | .tuple as, .tuple bs =>
          if as.length = bs.length then subAll as bs else false
      | _, _ => false
where
  subAll : List PyType → List PyType → Bool
  | [], [] => true
  | a :: as, b :: bs => isSubOptionType a b && subAll as bs
  | _, _ => false

/-- Direct translation of hasSuperOptionType (PythonContext.cc lines
770-806): the out-parameter super becomes the value of the returned
option, with none for the false return. -/
def hasSuperOptionType : PyType → PyType → Option PyType
  | t1, t2 =>
    if PyType.beq t1 t2 then some t1
    else if t1.isOptionType &&
        (PyType.beq t1.getReturnType t2 || PyType.beq .nullValue t2) then some t1
    else if t2.isOptionType &&
        (PyType.beq t2.getReturnType t1 || PyType.beq .nullValue t1) then some t2
    else if PyType.beq t1 .nullValue then some (PyType.makeOptionType t2)
    else if PyType.beq t2 .nullValue then some (PyType.makeOptionType t1)
    else match t1, t2 with
      | .tuple as, .tuple bs =>
          if as.length = bs.length then
            (superAll as bs).map PyType.makeTupleType
          else none
      | _, _ => none
where
  superAll : List PyType → List PyType → Option (List PyType)
  | [], [] => some []
  | a :: as, b :: bs =>
      match hasSuperOptionType a b, superAll as bs with
      | some s, some ss => some (s :: ss)
      | _, _ => none
  | _, _ => none

/-- Lookup of a count in the histogram, mirroring std::map::at with the
guarantee (holding at every call site in the source) that the key is
present; absent keys give 0. -/
def mapAt (colTypes : List (PyType × Nat)) (k : PyType) : Nat :=
  (colTypes.lookup k).getD 0

/-- INT_MIN initializer used by the majority scan
(std::numeric_limits of int, min). -/
def intMin : Int := -(2 ^ 31)

/-- Majority scan of buildRowTypeFromSamples (PythonContext.cc lines
812-841): walk the sorted (type, frequency) vector, tracking the
strict-max frequency and its type, and the same restricted to tuple
types. Returns (max, majType, maxTuple, majTupleType). -/
def majorityScan (sortedTypes : List (PyType × Nat)) :
    Int × PyType × Int × PyType :=
  sortedTypes.foldl
    (fun acc entry =>
      let mx := acc.1
      let mj := acc.2.1
      let mxT := acc.2.2.1
      let mjT := acc.2.2.2
      let t := entry.1
      let frequency : Int := (entry.2 : Int)
      let mx' := if frequency > mx then frequency else mx
      let mj' := if frequency > mx then t else mj
      let mxT' := if t.isTupleType && decide (frequency > mxT) then frequency else mxT
      let mjT' := if t.isTupleType && decide (frequency > mxT) then t else mjT
      (mx', mj', mxT', mjT'))
    (intMin, .unknown, intMin, .unknown)

/-- Fold of the tuple-optionize loop (PythonContext.cc lines 845-852):
starting from the majority tuple type, merge every histogram entry into
the running superTuple via hasSuperOptionType (the in/out aliasing of
the C++ call leaves superTuple unchanged on failure) and accumulate the
counts of the entries that merged. -/
def superFold (colTypes : List (PyType × Nat)) (init : PyType) :
    PyType × Int :=
  colTypes.foldl
    (fun acc entry =>
      match hasSuperOptionType entry.1 acc.1 with
      | some s => (s, acc.2 + (entry.2 : Int))
      | none => acc)
    (init, 0)

/-- Tuple super-option step of buildRowTypeFromSamples (PythonContext.cc
lines 843-855): when a majority tuple type exists, replace majType with
the folded superTuple when num beats max and the fraction
(num - count(majTupleType)) / numSamples lies strictly inside
(1 - threshold, threshold). -/
def tupleSuperPass (colTypes : List (PyType × Nat)) (numSamples : Nat)
    (threshold : ℚ) (mx : Int) (majType : PyType) (majTupleType : PyType) :
    PyType :=
  if majTupleType.isTupleType then
    let r := superFold colTypes majTupleType
    let superTuple := r.1
    let num := r.2
    let fraction : ℚ := ((num : ℚ) - (mapAt colTypes majTupleType : ℚ)) / (numSamples : ℚ)
    if num > mx ∧ fraction > 1 - threshold ∧ fraction < threshold then
      superTuple
    else majType
  else majType

/-- Null-count step of buildRowTypeFromSamples (PythonContext.cc lines
857-863): when the majority type is neither UNKNOWN nor NULLVALUE and
the histogram contains NULLVALUE with a fraction strictly inside
(1 - threshold, threshold), lift the majority type into an option. -/
def nullLiftPass (colTypes : List (PyType × Nat)) (numSamples : Nat)
    (threshold : ℚ) (majType : PyType) : PyType :=
  if ¬ PyType.beq majType .unknown ∧ ¬ PyType.beq majType .nullValue ∧
      (colTypes.lookup PyType.nullValue).isSome then
    let noneFraction : ℚ := (mapAt colTypes .nullValue : ℚ) / (numSamples : ℚ)
    if noneFraction > 1 - threshold ∧ noneFraction < threshold then
      PyType.makeOptionType majType
    else majType
  else majType

/-- Translation of buildRowTypeFromSamples (PythonContext.cc lines
808-866). colTypes is the histogram in std::map iteration order,
sortedTypes the same entries in the order produced by the isSubclass
sort (both orders are fixed outside this translation unit). -/
def buildRowTypeFromSamples (colTypes sortedTypes : List (PyType × Nat))
    (numSamples : Nat) (threshold : ℚ) : PyType :=
  let scan := majorityScan sortedTypes
  let m1 := tupleSuperPass colTypes numSamples threshold scan.1 scan.2.1 scan.2.2.2
  nullLiftPass colTypes numSamples threshold m1

theorem beq_false_of_ne {a b : PyType} (h : a ≠ b) : PyType.beq a b = false := by
  cases hb : PyType.beq a b
  · rfl
  · exact absurd ((PyType.beq_iff_eq a b).mp hb) h

/-- Unfolded form of the inferencer: the majority scan feeds the tuple
super-option step, whose result feeds the null-lift step. -/
theorem buildRowTypeFromSamples_eq (colTypes sortedTypes : List (PyType × Nat))
    (numSamples : Nat) (threshold : ℚ) :
    buildRowTypeFromSamples colTypes sortedTypes numSamples threshold =
      nullLiftPass colTypes numSamples threshold
        (tupleSuperPass colTypes numSamples threshold
          (majorityScan sortedTypes).1 (majorityScan sortedTypes).2.1
          (majorityScan sortedTypes).2.2.2) := rfl

/-- C1: for a non-empty sample whose majority type m (the value reaching
the null-count step, i.e. after the tuple super-option step) is neither
UNKNOWN nor NULL, and whose histogram contains NULL with count c and
null fraction f = c / n, the inferencer returns Option(m) iff f lies
strictly inside (1 - threshold, threshold), and returns m unchanged
otherwise. -/
theorem c1_option_lifting
    (colTypes sortedTypes : List (PyType × Nat)) (n : Nat) (θ : ℚ)
    (m : PyType) (c : Nat)
    (hn : 0 < n)
    (hm : tupleSuperPass colTypes n θ (majorityScan sortedTypes).1
        (majorityScan sortedTypes).2.1 (majorityScan sortedTypes).2.2.2 = m)
    (hmu : m ≠ PyType.unknown) (hmn : m ≠ PyType.nullValue)
    (hc : colTypes.lookup PyType.nullValue = some c) :
    (buildRowTypeFromSamples colTypes sortedTypes n θ = PyType.option m ↔
      (1 - θ < (c : ℚ) / (n : ℚ) ∧ (c : ℚ) / (n : ℚ) < θ)) ∧
    (¬ (1 - θ < (c : ℚ) / (n : ℚ) ∧ (c : ℚ) / (n : ℚ) < θ) →
      buildRowTypeFromSamples colTypes sortedTypes n θ = m) := by
  rw [buildRowTypeFromSamples_eq, hm]
  have hcond : (¬ PyType.beq m PyType.unknown = true ∧
      ¬ PyType.beq m PyType.nullValue = true ∧
      (colTypes.lookup PyType.nullValue).isSome = true) := by
    refine ⟨?_, ?_, ?_⟩
    · rw [beq_false_of_ne hmu]; simp
    · rw [beq_false_of_ne hmn]; simp
    · rw [hc]; rfl
  have hat : (mapAt colTypes PyType.nullValue : ℚ) = (c : ℚ) := by
    rw [mapAt, hc]; rfl
  rw [nullLiftPass, if_pos hcond]
  simp only [hat]
  constructor
  · constructor
    · intro h
      by_contra hband
      rw [if_neg ?_] at h
      · exact PyType.option_ne_self m h.symm
      · push_neg at hband
        intro hh
        have := hband hh.1
        exact absurd hh.2 (by simpa using this)
    · intro hband
      rw [if_pos ?_]
      · constructor
      · exact ⟨by simpa using hband.1, by simpa using hband.2⟩
  · intro hband
    rw [if_neg ?_]
    intro hh
    exact hband ⟨by simpa using hh.1, by simpa using hh.2⟩

/-- Witness for C1 at the nullable-strings seed scenario: histogram
{STR : 3, NULL : 2}, sample size 5, threshold 9/10; the fraction 2/5
lies in (1/10, 9/10), so the inferencer returns Option(STR). -/
theorem c1_option_lifting_witness :
    buildRowTypeFromSamples [(PyType.str, 3), (PyType.nullValue, 2)]
      [(PyType.str, 3), (PyType.nullValue, 2)] 5 (9/10) =
      PyType.option PyType.str :=
  ((c1_option_lifting [(PyType.str, 3), (PyType.nullValue, 2)]
      [(PyType.str, 3), (PyType.nullValue, 2)] 5 (9/10) PyType.str 2
      (by decide) (by decide) (by decide) (by decide) (by decide)).1).mpr
    (by norm_num)

/-- Coverage count named by claim C3: the sum of counts of histogram
entries whose superOption with the majority tuple type is defined,
minus the count of the majority tuple type itself. -/
def claimCov (colTypes : List (PyType × Nat)) (mT : PyType) : Int :=
  (colTypes.foldl
    (fun acc e => if (hasSuperOptionType e.1 mT).isSome then acc + (e.2 : Int) else acc)
    0) - (mapAt colTypes mT : Int)

/-- Histogram refuting claim C3: three rows of type (I64,) and two rows
of type (NULL,). -/
def c3Hist : List (PyType × Nat) :=
  [(PyType.tuple [PyType.i64], 3), (PyType.tuple [PyType.nullValue], 2)]

/-- Counterexample to C3: on the histogram {(I64,) : 3, (NULL,) : 2}
with sample size 5 and threshold 9/10, the majority type is (I64,) with
maxCount 3 and the coverage defined by the claim is cov = 5 - 3 = 2, so
the claim (replace exactly when cov > maxCount and the fraction is in
band) forbids replacement; the code nevertheless replaces the majority
type with (Option(I64),) because it compares num = 5 (without
subtracting count(m_t)) against maxCount. -/
theorem c3_counterexample :
    buildRowTypeFromSamples c3Hist c3Hist 5 (9/10) =
      PyType.tuple [PyType.option PyType.i64] ∧
    (majorityScan c3Hist).2.1 = PyType.tuple [PyType.i64] ∧
    (majorityScan c3Hist).1 = 3 ∧
    claimCov c3Hist (PyType.tuple [PyType.i64]) = 2 ∧
    ¬ (claimCov c3Hist (PyType.tuple [PyType.i64]) > 3) := by
  have hscan : majorityScan c3Hist =
      (3, PyType.tuple [PyType.i64], 3, PyType.tuple [PyType.i64]) := by decide
  have hfold : superFold c3Hist (PyType.tuple [PyType.i64]) =
      (PyType.tuple [PyType.option PyType.i64], 5) := by decide
  have hat : (mapAt c3Hist (PyType.tuple [PyType.i64]) : ℚ) = (3 : ℚ) := by
    have : mapAt c3Hist (PyType.tuple [PyType.i64]) = 3 := by decide
    rw [this]; norm_num
  refine ⟨?_, by rw [hscan], by rw [hscan], by decide, by decide⟩
  rw [buildRowTypeFromSamples_eq, hscan]
  have hpass : tupleSuperPass c3Hist 5 (9/10) 3 (PyType.tuple [PyType.i64])
      (PyType.tuple [PyType.i64]) = PyType.tuple [PyType.option PyType.i64] := by
    rw [tupleSuperPass, if_pos (by decide)]
    simp only [hfold, hat]
    rw [if_pos (by norm_num)]
  rw [hpass, nullLiftPass, if_neg (by decide)]

/-- C3 (amended): when a majority tuple type exists, the majority type m
is replaced by the accumulated super-option tuple s exactly when
num > maxCount and (num - count(m_t)) / numSamples lies strictly inside
(1 - threshold, threshold), where (s, num) is the left fold of
superOption merging over the histogram starting from m_t, num summing
the counts of the entries that merged (count(m_t) is not subtracted in
the comparison against maxCount). -/
theorem c3_tuple_super_amended
    (colTypes : List (PyType × Nat)) (n : Nat) (θ : ℚ) (mx : Int)
    (majType majTupleType s : PyType) (num : Int)
    (hT : majTupleType.isTupleType = true)
    (hs : superFold colTypes majTupleType = (s, num))
    (hne : s ≠ majType) :
    (tupleSuperPass colTypes n θ mx majType majTupleType = s ↔
      (num > mx ∧
        ((num : ℚ) - (mapAt colTypes majTupleType : ℚ)) / (n : ℚ) > 1 - θ ∧
        ((num : ℚ) - (mapAt colTypes majTupleType : ℚ)) / (n : ℚ) < θ)) ∧
    (¬ (num > mx ∧
        ((num : ℚ) - (mapAt colTypes majTupleType : ℚ)) / (n : ℚ) > 1 - θ ∧
        ((num : ℚ) - (mapAt colTypes majTupleType : ℚ)) / (n : ℚ) < θ) →
      tupleSuperPass colTypes n θ mx majType majTupleType = majType) := by
  rw [tupleSuperPass, if_pos hT]
  simp only [hs]
  constructor
  · constructor
    · intro h
      by_contra hcond
      rw [if_neg hcond] at h
      exact hne h.symm
    · intro hcond
      rw [if_pos hcond]
  · intro hcond
    rw [if_neg hcond]

/-- Witness for the amended C3 at the counterexample histogram: the fold
gives s = (Option(I64),) with num = 5 > maxCount = 3 and fraction
2/5 in (1/10, 9/10), so the majority type is replaced by s. -/
theorem c3_tuple_super_amended_witness :
    tupleSuperPass c3Hist 5 (9/10) 3 (PyType.tuple [PyType.i64])
      (PyType.tuple [PyType.i64]) = PyType.tuple [PyType.option PyType.i64] := by
  have hat : (mapAt c3Hist (PyType.tuple [PyType.i64]) : ℚ) = (3 : ℚ) := by
    have : mapAt c3Hist (PyType.tuple [PyType.i64]) = 3 := by decide
    rw [this]; norm_num
  refine ((c3_tuple_super_amended c3Hist 5 (9/10) 3 (PyType.tuple [PyType.i64])
      (PyType.tuple [PyType.i64]) (PyType.tuple [PyType.option PyType.i64]) 5
      (by decide) (by decide) (by decide)).1).mpr ?_
  rw [hat]
  refine ⟨by decide, by norm_num, by norm_num⟩

/-! Host-runtime objects and the CPython primitives used by the
encoders. -/

/-- CPython objects visible to the ingestion core. Strings are UTF-8
byte sequences (PyUnicode_AsUTF8); integers are unbounded as in
CPython. -/
inductive PyObj where
  | noneV  : PyObj
  | boolV  : Bool → PyObj
  | intV   : Int → PyObj
  | floatV : ℚ → PyObj
  | strV   : List Nat → PyObj
  | tupleV : List PyObj → PyObj
  | dictV  : List (PyObj × PyObj) → PyObj
  | otherV : PyObj
deriving Repr

namespace PyObj

/-- PyBool_Check. -/
def isBool : PyObj → Bool
  | .boolV _ => true
  | _ => false

/-- PyLong_CheckExact: true exactly for int objects (bool is a strict
subclass in CPython, so booleans fail the exact check). -/
def isLongExact : PyObj → Bool
  | .intV _ => true
  | _ => false

/-- PyFloat_CheckExact. -/
def isFloatExact : PyObj → Bool
  | .floatV _ => true
  | _ => false

/-- PyUnicode_Check. -/
def isStr : PyObj → Bool
  | .strV _ => true
  | _ => false

/-- PyTuple_Check. -/
def isTuple : PyObj → Bool
  | .tupleV _ => true
  | _ => false

/-- PyDict_Check. -/
def isDict : PyObj → Bool
  | .dictV _ => true
  | _ => false

end PyObj

/-- Modelled from the spec (and the CPython contract the source relies
on): PyLong_AsLongLong yields the value when it fits a signed 64-bit
integer, and otherwise returns -1 with the runtime error flag raised.
The first argument is the incoming error flag, the result pairs the
returned value with the outgoing error flag. -/
def pyLongAsLongLong (err : Bool) (v : Int) : Int × Bool :=
  if -(2 ^ 63) ≤ v ∧ v < 2 ^ 63 then (v, err) else (-1, true)

/-- PyErr_Clear: resets the runtime error flag. -/
def pyErrClear (_ : Bool) : Bool := false

/-- PyUnicode_GET_SIZE combined with the source assertion
len == strlen(utf8ptr) (PythonContext.cc lines 267 and 421): the length
in bytes of the UTF-8 representation, excluding the trailing NUL. -/
def pyUnicodeGetSize : PyObj → Nat
  | .strV s => s.length
  | _ => 0

/-! Partition writer state shared by all encoders. A partition is the
header word (*rawPtr, the first 8 bytes) plus the committed rows of the
payload area; the byte cursor and capacity live in the encoder state.
Partition capacities are unconstrained by the model: caps k is the
capacity of the k-th allocated partition, covering any behavior of
allocWritablePartition. -/

/-- A driver partition: header count word and committed payload rows. -/
structure Partn (ρ : Type) where
  header : Nat
  rows : List ρ
deriving Repr

/-- Encoder loop state: completed partitions, the current write-locked
partition with its capacity, the byte cursor (numBytesSerialized), the
allocation counter, the quarantine list (_badParallelizeObjects) and
the runtime error flag. -/
structure EncState (ρ : Type) where
  partitions : List (Partn ρ)
  cur : Partn ρ
  curCap : Nat
  nBytes : Nat
  allocIdx : Nat
  bad : List (Nat × PyObj)
  errPending : Bool
deriving Repr

/-- Initial encoder state: one freshly allocated partition of capacity
caps 0, zeroed header, empty quarantine. -/
def EncState.init (ρ : Type) (caps : Nat → Nat) : EncState ρ :=
  ⟨[], ⟨0, []⟩, caps 0, 0, 1, [], false⟩

/-- Partition rotation (unlockWrite, push_back, allocWritablePartition,
lockWriteRaw, zero the header, reset the byte cursor). -/
def EncState.rotate {ρ : Type} (caps : Nat → Nat) (st : EncState ρ) : EncState ρ :=
  { st with
    partitions := st.partitions ++ [st.cur]
    cur := ⟨0, []⟩
    curCap := caps st.allocIdx
    nBytes := 0
    allocIdx := st.allocIdx + 1 }

/-- Committing one row: write the payload at the cursor, advance the
cursor by nb bytes and bump the header word. -/
def EncState.pushRow {ρ : Type} (st : EncState ρ) (r : ρ) (nb : Nat) : EncState ρ :=
  { st with
    cur := ⟨st.cur.header + 1, st.cur.rows ++ [r]⟩
    nBytes := st.nBytes + nb }

/-- Quarantining one element:
_badParallelizeObjects.emplace_back(make_tuple(i, obj)). -/
def EncState.quarantine {ρ : Type} (st : EncState ρ) (i : Nat) (o : PyObj) : EncState ρ :=
  { st with bad := st.bad ++ [(i, o)] }

/-- Completed partitions of a finished run: the loop unlocks and pushes
the current partition after the last element. -/
def EncState.finish {ρ : Type} (st : EncState ρ) : List (Partn ρ) :=
  st.partitions ++ [st.cur]

/-- Payload rows of all partitions in order. -/
def concatRows {ρ : Type} (ps : List (Partn ρ)) : List ρ :=
  (ps.map Partn.rows).flatten

/-! Fast encoders (PythonContext.cc). Each mirrors the source loop; the
element index i is threaded explicitly. -/

/-- One iteration of the fastBoolParallelize loop (PythonContext.cc
lines 341-364): capacity check first, then accept booleans (widened to
0/1 in an int64 slot) and quarantine everything else. -/
def fastBoolStep (caps : Nat → Nat) (i : Nat) (st : EncState Int)
    (obj : PyObj) : EncState Int :=
  let st1 := if st.curCap < st.nBytes + 8 then st.rotate caps else st
  match obj with
  | .boolV b => st1.pushRow (if b then 1 else 0) 8
  | _ => st1.quarantine i obj

/-- Loop of fastBoolParallelize over the remaining elements. -/
def fastBoolLoop (caps : Nat → Nat) : List PyObj → Nat → EncState Int → EncState Int
  | [], _, st => st
  | obj :: rest, i, st =>
      fastBoolLoop caps rest (i + 1) (fastBoolStep caps i st obj)

/-- Translation of fastBoolParallelize (PythonContext.cc lines 320-371):
the returned pair is the partition list handed to fromPartitions and the
quarantine list left in the ingestion state. -/
def fastBoolParallelize (caps : Nat → Nat) (objs : List PyObj) :
    List (Partn Int) × List (Nat × PyObj) :=
  if objs.length = 0 then ([], [])
  else
    let st := fastBoolLoop caps objs 0 (EncState.init Int caps)
    (st.finish, st.bad)

/-- One iteration of the fastI64Parallelize loop (PythonContext.cc
lines 125-161): capacity check first; exact integers go through
PyLong_AsLongLong with quarantine (error cleared) on overflow; under
autoUpcast booleans widen to 0/1; everything else is quarantined. -/
def fastI64Step (caps : Nat → Nat) (upcast : Bool) (i : Nat)
    (st : EncState Int) (obj : PyObj) : EncState Int :=
  let st1 := if st.curCap < st.nBytes + 8 then st.rotate caps else st
  match obj with
  | .intV v =>
      let r := pyLongAsLongLong st1.errPending v
      if r.2 then
        ({ st1 with errPending := pyErrClear r.2 }).quarantine i obj
      else ({ st1 with errPending := r.2 }).pushRow r.1 8
  | .boolV b =>
      if upcast then st1.pushRow (if b then 1 else 0) 8
      else st1.quarantine i obj
  | _ => st1.quarantine i obj

/-- Loop of fastI64Parallelize over the remaining elements. -/
def fastI64Loop (caps : Nat → Nat) (upcast : Bool) :
    List PyObj → Nat → EncState Int → EncState Int
  | [], _, st => st
  | obj :: rest, i, st =>
      fastI64Loop caps upcast rest (i + 1) (fastI64Step caps upcast i st obj)

/-- Translation of fastI64Parallelize (PythonContext.cc lines 104-168). -/
def fastI64Parallelize (caps : Nat → Nat) (upcast : Bool) (objs : List PyObj) :
    (List (Partn Int) × List (Nat × PyObj)) × Bool :=
  if objs.length = 0 then (([], []), false)
  else
    let st := fastI64Loop caps upcast objs 0 (EncState.init Int caps)
    ((st.finish, st.bad), st.errPending)

/-- Loop of fastF64Parallelize (PythonContext.cc lines 55-95): capacity
check first; exact floats are stored; under autoUpcast booleans widen to
0.0/1.0 and integers convert through PyLong_AsLongLong with quarantine
(error cleared) on overflow; everything else is quarantined. The stored
double value is modelled exactly as a rational. -/
def fastF64Step (caps : Nat → Nat) (upcast : Bool) (i : Nat)
    (st : EncState ℚ) (obj : PyObj) : EncState ℚ :=
  let st1 := if st.curCap < st.nBytes + 8 then st.rotate caps else st
  match obj with
  | .floatV q => st1.pushRow q 8
  | .boolV b =>
      if upcast then st1.pushRow (if b then 1 else 0) 8
      else st1.quarantine i obj
  | .intV v =>
      if upcast then
        let r := pyLongAsLongLong st1.errPending v
        if r.2 then
          ({ st1 with errPending := pyErrClear r.2 }).quarantine i obj
        else ({ st1 with errPending := r.2 }).pushRow (r.1 : ℚ) 8
      else st1.quarantine i obj
  | _ => st1.quarantine i obj

/-- Loop of fastF64Parallelize over the remaining elements. -/
def fastF64Loop (caps : Nat → Nat) (upcast : Bool) :
    List PyObj → Nat → EncState ℚ → EncState ℚ
  | [], _, st => st
  | obj :: rest, i, st =>
      fastF64Loop caps upcast rest (i + 1) (fastF64Step caps upcast i st obj)

/-- Translation of fastF64Parallelize (PythonContext.cc lines 31-102). -/
def fastF64Parallelize (caps : Nat → Nat) (upcast : Bool) (objs : List PyObj) :
    (List (Partn ℚ) × List (Nat × PyObj)) × Bool :=
  if objs.length = 0 then (([], []), false)
  else
    let st := fastF64Loop caps upcast objs 0 (EncState.init ℚ caps)
    ((st.finish, st.bad), st.errPending)

/-- One serialized string row of fastStrParallelize: descriptor word,
total-varlength word, and the tail bytes (the UTF-8 bytes plus the NUL
terminator). -/
structure StrRow where
  info : Nat
  varTotal : Nat
  tail : List Nat
deriving Repr

/-- Descriptor word: low 32 bits the offset from the slot address to the
string bytes, high 32 bits the byte length including the trailing NUL
(info_field = varLenOffset | (varFieldSize << 32), size_t
arithmetic). -/
def mkInfoField (off size : Nat) : Nat :=
  (off % 2 ^ 64) ||| (size * 2 ^ 32 % 2 ^ 64)

/-- Loop of fastStrParallelize (PythonContext.cc lines 394-438): strings
are serialized as descriptor word, total varlength word and
NUL-terminated tail; capacity is checked against the full required
bytes inside the accept branch; non-strings are quarantined. -/
def fastStrStep (caps : Nat → Nat) (i : Nat) (st : EncState StrRow)
    (obj : PyObj) : EncState StrRow :=
  match obj with
  | .strV s =>
      let len := s.length
      let requiredBytes := 8 * 2 + len + 1
      let st1 := if st.curCap < st.nBytes + requiredBytes then st.rotate caps else st
      let varFieldSize := len + 1
      let varLenOffset := 2 * 8
      st1.pushRow ⟨mkInfoField varLenOffset varFieldSize, varFieldSize, s ++ [0]⟩
        requiredBytes
  | _ => st.quarantine i obj

/-- Loop of fastStrParallelize over the remaining elements. -/
def fastStrLoop (caps : Nat → Nat) : List PyObj → Nat → EncState StrRow → EncState StrRow
  | [], _, st => st
  | obj :: rest, i, st =>
      fastStrLoop caps rest (i + 1) (fastStrStep caps i st obj)

/-- Translation of fastStrParallelize (PythonContext.cc lines 373-445). -/
def fastStrParallelize (caps : Nat → Nat) (objs : List PyObj) :
    List (Partn StrRow) × List (Nat × PyObj) :=
  if objs.length = 0 then ([], [])
  else
    let st := fastStrLoop caps objs 0 (EncState.init StrRow caps)
    (st.finish, st.bad)

/-! Fast tuple-of-scalars encoder
(fastMixedSimpleTypeTupleTransfer, PythonContext.cc lines 170-318). -/

/-- One 8-byte slot of a serialized tuple row: an int64 payload (bool
widened to 0/1, or an integer), a double payload (value modelled
exactly), a string descriptor word, or the total-varlength word. -/
inductive Slot where
  | i64Slot : Int → Slot
  | f64Slot : ℚ → Slot
  | descSlot : Nat → Slot
  | varLenSlot : Nat → Slot
deriving Repr, DecidableEq

/-- One committed tuple row: the fixed 8-byte slots in field order
(with the trailing total-varlength slot when present) and the
variable-length tail bytes. -/
structure TupleRow where
  slots : List Slot
  tail : List Nat
deriving Repr

/-- Modelled from the spec: makeTypeStr encodes each tuple parameter as
a character tag, b for BOOLEAN, i for I64, f for F64, s for STRING (the
only parameter types reaching this encoder through
tupleElementsHaveSimpleTypes); other types get an unhandled tag. -/
def makeTypeStr (params : List PyType) : List Char :=
  params.map fun t =>
    match t with
    | .boolean => 'b'
    | .i64 => 'i'
    | .f64 => 'f'
    | .str => 's'
    | _ => '?'

/-- Required byte count of a candidate tuple row (PythonContext.cc lines
212-217): the fixed slots plus, for every field tagged s, the
GET_SIZE of the element at that position plus one. The source applies
PyUnicode_GET_SIZE before the field type check, so for a non-string at a
string position the value is unspecified in C++ (modelled 0 by
pyUnicodeGetSize); such rows are quarantined later, leaving only the
rotation decision affected. -/
def requiredBytesOf (base : Nat) (tags : List Char) (els : List PyObj) : Nat :=
  base + ((tags.zip els).foldl
    (fun acc p => if p.1 = 's' then acc + pyUnicodeGetSize p.2 + 1 else acc) 0)

/-- Field serialization loop of the tuple encoder (PythonContext.cc
lines 233-282): walks the (tag, element) pairs with field index j,
accumulating rowVarFieldSizes and the runtime error flag. A failed type
check is the goto bad_element path: the partial writes are abandoned
(the write cursor is rewound to the row start) and the error flag at the
failure point is reported. An unhandled tag writes nothing, mirroring
the switch without a default case. The first result component carries
the slots, tail bytes and final rowVarFieldSizes on success. -/
def serializeFields (n : Nat) :
    List (Char × PyObj) → Nat → Nat → Bool →
    Option (List Slot × List Nat × Nat) × Bool
  | [], _, rv, err => (some ([], [], rv), err)
  | (c, el) :: rest, j, rv, err =>
    if c = 'b' then
      match el with
      | .boolV b =>
          let r := serializeFields n rest (j + 1) rv err
          ((r.1).map fun x =>
            (Slot.i64Slot (if b then 1 else 0) :: x.1, x.2.1, x.2.2), r.2)
      | _ => (none, err)
    else if c = 'i' then
      match el with
      | .intV v =>
          let q := pyLongAsLongLong err v
          let r := serializeFields n rest (j + 1) rv q.2
          ((r.1).map fun x => (Slot.i64Slot q.1 :: x.1, x.2.1, x.2.2), r.2)
      | _ => (none, err)
    else if c = 'f' then
      match el with
      | .floatV q =>
          let r := serializeFields n rest (j + 1) rv err
          ((r.1).map fun x => (Slot.f64Slot q :: x.1, x.2.1, x.2.2), r.2)
      | _ => (none, err)
    else if c = 's' then
      match el with
      | .strV s =>
          let len := s.length
          let varFieldSize := len + 1
          let varLenOffset := (n + 1 - j) * 8 + rv
          let info := mkInfoField varLenOffset varFieldSize
          let r := serializeFields n rest (j + 1) (rv + varFieldSize) err
          ((r.1).map fun x =>
            (Slot.descSlot info :: x.1, (s ++ [0]) ++ x.2.1, x.2.2), r.2)
      | _ => (none, err)
    else serializeFields n rest (j + 1) rv err

/-- Body of a tuple-shaped candidate of matching arity (PythonContext.cc
lines 208-299): compute the required bytes, rotate the partition if the
capacity is exhausted, run the field serialization loop; commit the row
on success, quarantine the whole element on a failed field check (the
write cursor rewind makes the partial field writes vanish). -/
def fastMixedBody (caps : Nat → Nat) (tags : List Char) (n : Nat)
    (varLenField : Bool) (base : Nat) (i : Nat) (st : EncState TupleRow)
    (els : List PyObj) : EncState TupleRow :=
  let requiredBytes := if varLenField then requiredBytesOf base tags els else base
  let st1 := if st.curCap < st.nBytes + requiredBytes then st.rotate caps else st
  let r := serializeFields n (tags.zip els) 0 0 st1.errPending
  match r.1 with
  | some (ss, tl, rv) =>
      let slots := if varLenField then ss ++ [Slot.varLenSlot rv] else ss
      ({ st1 with errPending := r.2 }).pushRow ⟨slots, tl⟩ requiredBytes
  | none => ({ st1 with errPending := r.2 }).quarantine i (PyObj.tupleV els)

def fastMixedStep (caps : Nat → Nat) (tags : List Char) (n : Nat)
    (varLenField : Bool) (base : Nat) (i : Nat) (st : EncState TupleRow)
    (obj : PyObj) : EncState TupleRow :=
  match obj with
  | .tupleV els =>
      if els.length = n then fastMixedBody caps tags n varLenField base i st els
      else st.quarantine i obj
  | _ => st.quarantine i obj

/-- Loop of fastMixedSimpleTypeTupleTransfer over the remaining
elements. -/
def fastMixedLoop (caps : Nat → Nat) (tags : List Char) (n : Nat)
    (varLenField : Bool) (base : Nat) :
    List PyObj → Nat → EncState TupleRow → EncState TupleRow
  | [], _, st => st
  | obj :: rest, i, st =>
      fastMixedLoop caps tags n varLenField base rest (i + 1)
        (fastMixedStep caps tags n varLenField base i st obj)

/-- Translation of fastMixedSimpleTypeTupleTransfer (PythonContext.cc
lines 170-318) for a tuple majority type with the given parameter
list. -/
def fastMixedSimpleTypeTupleTransfer (caps : Nat → Nat) (params : List PyType)
    (objs : List PyObj) :
    (List (Partn TupleRow) × List (Nat × PyObj)) × Bool :=
  if objs.length = 0 then (([], []), false)
  else
    let tags := makeTypeStr params
    let n := params.length
    let varLenField := tags.contains 's'
    let base := (n + (if varLenField then 1 else 0)) * 8
    let st := fastMixedLoop caps tags n varLenField base objs 0
      (EncState.init TupleRow caps)
    ((st.finish, st.bad), st.errPending)

/-! Characterization machinery for the encoder loops. -/

/-- Payload rows written so far: completed partitions then the current
one. -/
def EncState.allRows {ρ : Type} (st : EncState ρ) : List ρ :=
  concatRows st.partitions ++ st.cur.rows

/-- Header invariant: every partition header word equals the number of
rows in its payload area. -/
def headersOk {ρ : Type} (st : EncState ρ) : Prop :=
  (∀ p ∈ st.partitions, p.header = p.rows.length) ∧
    st.cur.header = st.cur.rows.length

theorem concatRows_append {ρ : Type} (ps qs : List (Partn ρ)) :
    concatRows (ps ++ qs) = concatRows ps ++ concatRows qs := by
  simp [concatRows]

theorem finish_allRows {ρ : Type} (st : EncState ρ) :
    concatRows st.finish = st.allRows := by
  simp [EncState.finish, EncState.allRows, concatRows_append, concatRows]

theorem rotate_spec {ρ : Type} (caps : Nat → Nat) (st : EncState ρ) :
    (st.rotate caps).allRows = st.allRows ∧
    (st.rotate caps).bad = st.bad ∧
    (st.rotate caps).errPending = st.errPending ∧
    (headersOk st → headersOk (st.rotate caps)) := by
  refine ⟨?_, rfl, rfl, ?_⟩
  · simp [EncState.rotate, EncState.allRows, concatRows_append, concatRows]
  · rintro ⟨h1, h2⟩
    refine ⟨?_, rfl⟩
    intro p hp
    rcases List.mem_append.mp hp with h | h
    · exact h1 p h
    · rw [List.mem_singleton.mp h]; exact h2

theorem condRotate_spec {ρ : Type} (caps : Nat → Nat) (c : Prop) [Decidable c]
    (st : EncState ρ) :
    (if c then st.rotate caps else st).allRows = st.allRows ∧
    (if c then st.rotate caps else st).bad = st.bad ∧
    (if c then st.rotate caps else st).errPending = st.errPending ∧
    (headersOk st → headersOk (if c then st.rotate caps else st)) := by
  by_cases h : c
  · rw [if_pos h]; exact rotate_spec caps st
  · rw [if_neg h]; exact ⟨rfl, rfl, rfl, id⟩

theorem pushRow_spec {ρ : Type} (st : EncState ρ) (r : ρ) (nb : Nat) :
    (st.pushRow r nb).allRows = st.allRows ++ [r] ∧
    (st.pushRow r nb).bad = st.bad ∧
    (headersOk st → headersOk (st.pushRow r nb)) := by
  refine ⟨?_, rfl, ?_⟩
  · simp [EncState.pushRow, EncState.allRows]
  · rintro ⟨h1, h2⟩
    exact ⟨h1, by simp [EncState.pushRow, h2]⟩

theorem quarantine_spec {ρ : Type} (st : EncState ρ) (i : Nat) (o : PyObj) :
    (st.quarantine i o).allRows = st.allRows ∧
    (st.quarantine i o).bad = st.bad ++ [(i, o)] ∧
    (st.quarantine i o).errPending = st.errPending ∧
    (headersOk st → headersOk (st.quarantine i o)) := ⟨rfl, rfl, rfl, id⟩

theorem headersOk_init (ρ : Type) (caps : Nat → Nat) :
    headersOk (EncState.init ρ caps) :=
  ⟨fun p hp => absurd hp (List.not_mem_nil p), rfl⟩

theorem length_filter_not {α : Type} (p : α → Bool) (l : List α) :
    (l.filter p).length + (l.filter fun a => !(p a)).length = l.length := by
  induction l with
  | nil => rfl
  | cons a as ih =>
      by_cases h : p a <;> simp [List.filter_cons, h, ← ih] <;> omega

/-! Acceptance predicates and committed-row encodings, one pair per
fast encoder; each is a pure function of the input element read off the
source accept branch. -/

/-- Acceptance of the bool encoder: booleans only. -/
def acceptBool (o : PyObj) : Bool := o.isBool

/-- Row committed by the bool encoder. -/
def encodeBool : PyObj → Int
  | .boolV b => if b then 1 else 0
  | _ => 0

theorem fastBoolStep_spec (caps : Nat → Nat) (i : Nat) (st : EncState Int)
    (o : PyObj) :
    (fastBoolStep caps i st o).allRows =
        st.allRows ++ (if acceptBool o then [encodeBool o] else []) ∧
    (fastBoolStep caps i st o).bad =
        st.bad ++ (if acceptBool o then [] else [(i, o)]) ∧
    (headersOk st → headersOk (fastBoolStep caps i st o)) := by
  obtain ⟨hr1, hr2, hr3, hr4⟩ :=
    condRotate_spec caps (st.curCap < st.nBytes + 8) st
  cases o
  case boolV b =>
    obtain ⟨h1, h2, h4⟩ := pushRow_spec
      (if st.curCap < st.nBytes + 8 then st.rotate caps else st)
      (if b then (1 : Int) else 0) 8
    refine ⟨?_, ?_, fun h => h4 (hr4 h)⟩
    · show ((if st.curCap < st.nBytes + 8 then st.rotate caps else st).pushRow
        (if b then (1 : Int) else 0) 8).allRows = _
      rw [h1, hr1]; simp [acceptBool, PyObj.isBool, encodeBool]
    · show ((if st.curCap < st.nBytes + 8 then st.rotate caps else st).pushRow
        (if b then (1 : Int) else 0) 8).bad = _
      rw [h2, hr2]; simp [acceptBool, PyObj.isBool]
  all_goals {
    refine ⟨?_, ?_, ?_⟩
    · show ((if st.curCap < st.nBytes + 8 then st.rotate caps else st).quarantine
        i _).allRows = _
      rw [(quarantine_spec _ i _).1, hr1]; simp [acceptBool, PyObj.isBool]
    · show ((if st.curCap < st.nBytes + 8 then st.rotate caps else st).quarantine
        i _).bad = _
      rw [(quarantine_spec _ i _).2.1, hr2]; simp [acceptBool, PyObj.isBool]
    · exact fun h => (quarantine_spec _ i _).2.2.2 (hr4 h)
  }

theorem fastBoolLoop_spec (caps : Nat → Nat) (objs : List PyObj) :
    ∀ (i : Nat) (st : EncState Int),
      (fastBoolLoop caps objs i st).allRows =
          st.allRows ++ (objs.filter acceptBool).map encodeBool ∧
      (fastBoolLoop caps objs i st).bad =
          st.bad ++ ((List.enumFrom i objs).filter fun p => !acceptBool p.2) ∧
      (headersOk st → headersOk (fastBoolLoop caps objs i st)) := by
  induction objs with
  | nil => intro i st; simp [fastBoolLoop, List.enumFrom]
  | cons o rest ih =>
      intro i st
      obtain ⟨hs1, hs2, hs4⟩ := fastBoolStep_spec caps i st o
      obtain ⟨ih1, ih2, ih4⟩ := ih (i + 1) (fastBoolStep caps i st o)
      rw [fastBoolLoop]
      refine ⟨?_, ?_, fun h => ih4 (hs4 h)⟩
      · rw [ih1, hs1]
        by_cases ha : acceptBool o <;>
          simp [List.filter_cons, ha]
      · rw [ih2, hs2]
        by_cases ha : acceptBool o <;>
          simp [List.enumFrom, List.filter_cons, ha]

/-- Fit test of PyLong_AsLongLong: the signed 64-bit range. -/
def fitsI64 (v : Int) : Bool := decide (-(2 ^ 63) ≤ v ∧ v < 2 ^ 63)

theorem pyLongAsLongLong_fits (e : Bool) (v : Int)
    (h : -(2 ^ 63) ≤ v ∧ v < 2 ^ 63) : pyLongAsLongLong e v = (v, e) := by
  rw [pyLongAsLongLong, if_pos h]

theorem pyLongAsLongLong_over (e : Bool) (v : Int)
    (h : ¬ (-(2 ^ 63) ≤ v ∧ v < 2 ^ 63)) : pyLongAsLongLong e v = (-1, true) := by
  rw [pyLongAsLongLong, if_neg h]

/-- Acceptance of the i64 encoder: exact integers that fit 64 bits;
booleans under autoUpcast. -/
def acceptI64 (upcast : Bool) : PyObj → Bool
  | .intV v => fitsI64 v
  | .boolV _ => upcast
  | _ => false

/-- Row committed by the i64 encoder. -/
def encodeI64 : PyObj → Int
  | .intV v => v
  | .boolV b => if b then 1 else 0
  | _ => 0

theorem fastI64Step_spec (caps : Nat → Nat) (upcast : Bool) (i : Nat)
    (st : EncState Int) (o : PyObj) (he : st.errPending = false) :
    (fastI64Step caps upcast i st o).allRows =
        st.allRows ++ (if acceptI64 upcast o then [encodeI64 o] else []) ∧
    (fastI64Step caps upcast i st o).bad =
        st.bad ++ (if acceptI64 upcast o then [] else [(i, o)]) ∧
    (fastI64Step caps upcast i st o).errPending = false ∧
    (headersOk st → headersOk (fastI64Step caps upcast i st o)) := by
  obtain ⟨hr1, hr2, hr3, hr4⟩ :=
    condRotate_spec caps (st.curCap < st.nBytes + 8) st
  rw [he] at hr3
  cases o
  case intV v =>
    by_cases hv : -(2 ^ 63) ≤ v ∧ v < 2 ^ 63
    · have hstep : fastI64Step caps upcast i st (PyObj.intV v) =
          ({ (if st.curCap < st.nBytes + 8 then st.rotate caps else st) with
            errPending := false }).pushRow v 8 := by
        simp only [fastI64Step]
        rw [hr3, pyLongAsLongLong_fits false v hv]
        rfl
      rw [hstep]
      obtain ⟨h1, h2, h4⟩ := pushRow_spec
        ({ (if st.curCap < st.nBytes + 8 then st.rotate caps else st) with
          errPending := false }) v 8
      have ha : acceptI64 upcast (PyObj.intV v) = true := by
        simp only [acceptI64, fitsI64]
        exact decide_eq_true hv
      refine ⟨?_, ?_, rfl, ?_⟩
      · rw [h1]
        have heq : ({ (if st.curCap < st.nBytes + 8 then st.rotate caps else st) with
            errPending := false } : EncState Int).allRows =
            (if st.curCap < st.nBytes + 8 then st.rotate caps else st).allRows := rfl
        rw [heq, hr1, ha]
        simp [encodeI64]
      · rw [h2]
        have heq : ({ (if st.curCap < st.nBytes + 8 then st.rotate caps else st) with
            errPending := false } : EncState Int).bad =
            (if st.curCap < st.nBytes + 8 then st.rotate caps else st).bad := rfl
        rw [heq, hr2, ha]
        simp
      · intro h
        refine h4 ?_
        exact hr4 h
    · have hstep : fastI64Step caps upcast i st (PyObj.intV v) =
          ({ (if st.curCap < st.nBytes + 8 then st.rotate caps else st) with
            errPending := pyErrClear true }).quarantine i (PyObj.intV v) := by
        simp only [fastI64Step]
        rw [hr3, pyLongAsLongLong_over false v hv]
        rfl
      rw [hstep]
      have ha : acceptI64 upcast (PyObj.intV v) = false := by
        simp only [acceptI64, fitsI64]
        exact decide_eq_false hv
      refine ⟨?_, ?_, ?_, ?_⟩
      · rw [(quarantine_spec _ i _).1]
        have heq : ({ (if st.curCap < st.nBytes + 8 then st.rotate caps else st) with
            errPending := pyErrClear true } : EncState Int).allRows =
            (if st.curCap < st.nBytes + 8 then st.rotate caps else st).allRows := rfl
        rw [heq, hr1, ha]
        simp
      · rw [(quarantine_spec _ i _).2.1]
        have heq : ({ (if st.curCap < st.nBytes + 8 then st.rotate caps else st) with
            errPending := pyErrClear true } : EncState Int).bad =
            (if st.curCap < st.nBytes + 8 then st.rotate caps else st).bad := rfl
        rw [heq, hr2, ha]
        simp
      · rw [(quarantine_spec _ i _).2.2.1]
        rfl
      · intro h
        exact (quarantine_spec _ i _).2.2.2 (hr4 h)
  case boolV b =>
    by_cases hu : upcast
    · rw [show fastI64Step caps upcast i st (PyObj.boolV b) =
        (if st.curCap < st.nBytes + 8 then st.rotate caps else st).pushRow
          (if b then 1 else 0) 8 from by simp [fastI64Step, hu]]
      obtain ⟨h1, h2, h4⟩ := pushRow_spec
        (if st.curCap < st.nBytes + 8 then st.rotate caps else st)
        (if b then (1 : Int) else 0) 8
      refine ⟨?_, ?_, ?_, fun h => h4 (hr4 h)⟩
      · rw [h1, hr1]; simp [acceptI64, hu, encodeI64]
      · rw [h2, hr2]; simp [acceptI64, hu]
      · show (EncState.pushRow _ _ _).errPending = false
        simpa [EncState.pushRow] using hr3
    · rw [show fastI64Step caps upcast i st (PyObj.boolV b) =
        (if st.curCap < st.nBytes + 8 then st.rotate caps else st).quarantine
          i (PyObj.boolV b) from by simp [fastI64Step, hu]]
      refine ⟨?_, ?_, ?_, ?_⟩
      · rw [(quarantine_spec _ i _).1, hr1]; simp [acceptI64, hu]
      · rw [(quarantine_spec _ i _).2.1, hr2]; simp [acceptI64, hu]
      · rw [(quarantine_spec _ i _).2.2.1]; exact hr3
      · intro h; exact (quarantine_spec _ i _).2.2.2 (hr4 h)
  all_goals {
    refine ⟨?_, ?_, ?_, ?_⟩
    · show ((if st.curCap < st.nBytes + 8 then st.rotate caps else st).quarantine
        i _).allRows = _
      rw [(quarantine_spec _ i _).1, hr1]; simp [acceptI64]
    · show ((if st.curCap < st.nBytes + 8 then st.rotate caps else st).quarantine
        i _).bad = _
      rw [(quarantine_spec _ i _).2.1, hr2]; simp [acceptI64]
    · show ((if st.curCap < st.nBytes + 8 then st.rotate caps else st).quarantine
        i _).errPending = false
      rw [(quarantine_spec _ i _).2.2.1]; exact hr3
    · exact fun h => (quarantine_spec _ i _).2.2.2 (hr4 h)
  }

theorem fastI64Loop_spec (caps : Nat → Nat) (upcast : Bool)
    (objs : List PyObj) :
    ∀ (i : Nat) (st : EncState Int), st.errPending = false →
      (fastI64Loop caps upcast objs i st).allRows =
          st.allRows ++ (objs.filter (acceptI64 upcast)).map encodeI64 ∧
      (fastI64Loop caps upcast objs i st).bad =
          st.bad ++ ((List.enumFrom i objs).filter fun p => !acceptI64 upcast p.2) ∧
      (fastI64Loop caps upcast objs i st).errPending = false ∧
      (headersOk st → headersOk (fastI64Loop caps upcast objs i st)) := by
  induction objs with
  | nil => intro i st he; simp [fastI64Loop, List.enumFrom, he]
  | cons o rest ih =>
      intro i st he
      obtain ⟨hs1, hs2, hs3, hs4⟩ := fastI64Step_spec caps upcast i st o he
      obtain ⟨ih1, ih2, ih3, ih4⟩ := ih (i + 1) (fastI64Step caps upcast i st o) hs3
      rw [fastI64Loop]
      refine ⟨?_, ?_, ih3, fun h => ih4 (hs4 h)⟩
      · rw [ih1, hs1]
        by_cases ha : acceptI64 upcast o <;>
          simp [List.filter_cons, ha]
      · rw [ih2, hs2]
        by_cases ha : acceptI64 upcast o <;>
          simp [List.enumFrom, List.filter_cons, ha]

/-- Acceptance of the f64 encoder: exact floats; under autoUpcast also
booleans and integers that fit 64 bits. -/
def acceptF64 (upcast : Bool) : PyObj → Bool
  | .floatV _ => true
  | .boolV _ => upcast
  | .intV v => upcast && fitsI64 v
  | _ => false

/-- Row committed by the f64 encoder (the double conversion of an
upcast integer is modelled exactly). -/
def encodeF64 : PyObj → ℚ
  | .floatV q => q
  | .boolV b => if b then 1 else 0
  | .intV v => (v : ℚ)
  | _ => 0

theorem fastF64Step_spec (caps : Nat → Nat) (upcast : Bool) (i : Nat)
    (st : EncState ℚ) (o : PyObj) (he : st.errPending = false) :
    (fastF64Step caps upcast i st o).allRows =
        st.allRows ++ (if acceptF64 upcast o then [encodeF64 o] else []) ∧
    (fastF64Step caps upcast i st o).bad =
        st.bad ++ (if acceptF64 upcast o then [] else [(i, o)]) ∧
    (fastF64Step caps upcast i st o).errPending = false ∧
    (headersOk st → headersOk (fastF64Step caps upcast i st o)) := by
  obtain ⟨hr1, hr2, hr3, hr4⟩ :=
    condRotate_spec caps (st.curCap < st.nBytes + 8) st
  rw [he] at hr3
  cases o
  case floatV q =>
    obtain ⟨h1, h2, h4⟩ := pushRow_spec
      (if st.curCap < st.nBytes + 8 then st.rotate caps else st) q 8
    refine ⟨?_, ?_, ?_, fun h => h4 (hr4 h)⟩
    · show ((if st.curCap < st.nBytes + 8 then st.rotate caps else st).pushRow
        q 8).allRows = _
      rw [h1, hr1]; simp [acceptF64, encodeF64]
    · show ((if st.curCap < st.nBytes + 8 then st.rotate caps else st).pushRow
        q 8).bad = _
      rw [h2, hr2]; simp [acceptF64]
    · show (EncState.pushRow _ _ _).errPending = false
      simpa [EncState.pushRow] using hr3
  case boolV b =>
    by_cases hu : upcast
    · rw [show fastF64Step caps upcast i st (PyObj.boolV b) =
        (if st.curCap < st.nBytes + 8 then st.rotate caps else st).pushRow
          (if b then 1 else 0) 8 from by simp [fastF64Step, hu]]
      obtain ⟨h1, h2, h4⟩ := pushRow_spec
        (if st.curCap < st.nBytes + 8 then st.rotate caps else st)
        (if b then (1 : ℚ) else 0) 8
      refine ⟨?_, ?_, ?_, fun h => h4 (hr4 h)⟩
      · rw [h1, hr1]; simp [acceptF64, hu, encodeF64]
      · rw [h2, hr2]; simp [acceptF64, hu]
      · show (EncState.pushRow _ _ _).errPending = false
        simpa [EncState.pushRow] using hr3
    · rw [show fastF64Step caps upcast i st (PyObj.boolV b) =
        (if st.curCap < st.nBytes + 8 then st.rotate caps else st).quarantine
          i (PyObj.boolV b) from by simp [fastF64Step, hu]]
      refine ⟨?_, ?_, ?_, ?_⟩
      · rw [(quarantine_spec _ i _).1, hr1]; simp [acceptF64, hu]
      · rw [(quarantine_spec _ i _).2.1, hr2]; simp [acceptF64, hu]
      · rw [(quarantine_spec _ i _).2.2.1]; exact hr3
      · intro h; exact (quarantine_spec _ i _).2.2.2 (hr4 h)
  case intV v =>
    by_cases hu : upcast
    · by_cases hv : -(2 ^ 63) ≤ v ∧ v < 2 ^ 63
      · have hstep : fastF64Step caps upcast i st (PyObj.intV v) =
            ({ (if st.curCap < st.nBytes + 8 then st.rotate caps else st) with
              errPending := false }).pushRow (v : ℚ) 8 := by
          simp only [fastF64Step]
          rw [hr3, if_pos hu, pyLongAsLongLong_fits false v hv]
          rfl
        rw [hstep]
        have ha : acceptF64 upcast (PyObj.intV v) = true := by
          simp only [acceptF64, fitsI64, hu]
          simpa using decide_eq_true hv
        obtain ⟨h1, h2, h4⟩ := pushRow_spec
          ({ (if st.curCap < st.nBytes + 8 then st.rotate caps else st) with
            errPending := false }) (v : ℚ) 8
        refine ⟨?_, ?_, rfl, ?_⟩
        · rw [h1]
          have heq : ({ (if st.curCap < st.nBytes + 8 then st.rotate caps else st) with
              errPending := false } : EncState ℚ).allRows =
              (if st.curCap < st.nBytes + 8 then st.rotate caps else st).allRows := rfl
          rw [heq, hr1, ha]
          simp [encodeF64]
        · rw [h2]
          have heq : ({ (if st.curCap < st.nBytes + 8 then st.rotate caps else st) with
              errPending := false } : EncState ℚ).bad =
              (if st.curCap < st.nBytes + 8 then st.rotate caps else st).bad := rfl
          rw [heq, hr2, ha]
          simp
        · intro h
          exact h4 (hr4 h)
      · have hstep : fastF64Step caps upcast i st (PyObj.intV v) =
            ({ (if st.curCap < st.nBytes + 8 then st.rotate caps else st) with
              errPending := pyErrClear true }).quarantine i (PyObj.intV v) := by
          simp only [fastF64Step]
          rw [hr3, if_pos hu, pyLongAsLongLong_over false v hv]
          rfl
        rw [hstep]
        have ha : acceptF64 upcast (PyObj.intV v) = false := by
          simp only [acceptF64, fitsI64, hu]
          simpa using decide_eq_false hv
        refine ⟨?_, ?_, ?_, ?_⟩
        · rw [(quarantine_spec _ i _).1]
          have heq : ({ (if st.curCap < st.nBytes + 8 then st.rotate caps else st) with
              errPending := pyErrClear true } : EncState ℚ).allRows =
              (if st.curCap < st.nBytes + 8 then st.rotate caps else st).allRows := rfl
          rw [heq, hr1, ha]
          simp
        · rw [(quarantine_spec _ i _).2.1]
          have heq : ({ (if st.curCap < st.nBytes + 8 then st.rotate caps else st) with
              errPending := pyErrClear true } : EncState ℚ).bad =
              (if st.curCap < st.nBytes + 8 then st.rotate caps else st).bad := rfl
          rw [heq, hr2, ha]
          simp
        · rw [(quarantine_spec _ i _).2.2.1]
          rfl
        · intro h
          exact (quarantine_spec _ i _).2.2.2 (hr4 h)
    · rw [show fastF64Step caps upcast i st (PyObj.intV v) =
        (if st.curCap < st.nBytes + 8 then st.rotate caps else st).quarantine
          i (PyObj.intV v) from by simp [fastF64Step, hu]]
      refine ⟨?_, ?_, ?_, ?_⟩
      · rw [(quarantine_spec _ i _).1, hr1]; simp [acceptF64, hu]
      · rw [(quarantine_spec _ i _).2.1, hr2]; simp [acceptF64, hu]
      · rw [(quarantine_spec _ i _).2.2.1]; exact hr3
      · intro h; exact (quarantine_spec _ i _).2.2.2 (hr4 h)
  all_goals {
    refine ⟨?_, ?_, ?_, ?_⟩
    · show ((if st.curCap < st.nBytes + 8 then st.rotate caps else st).quarantine
        i _).allRows = _
      rw [(quarantine_spec _ i _).1, hr1]; simp [acceptF64]
    · show ((if st.curCap < st.nBytes + 8 then st.rotate caps else st).quarantine
        i _).bad = _
      rw [(quarantine_spec _ i _).2.1, hr2]; simp [acceptF64]
    · show ((if st.curCap < st.nBytes + 8 then st.rotate caps else st).quarantine
        i _).errPending = false
      rw [(quarantine_spec _ i _).2.2.1]; exact hr3
    · exact fun h => (quarantine_spec _ i _).2.2.2 (hr4 h)
  }

theorem fastF64Loop_spec (caps : Nat → Nat) (upcast : Bool)
    (objs : List PyObj) :
    ∀ (i : Nat) (st : EncState ℚ), st.errPending = false →
      (fastF64Loop caps upcast objs i st).allRows =
          st.allRows ++ (objs.filter (acceptF64 upcast)).map encodeF64 ∧
      (fastF64Loop caps upcast objs i st).bad =
          st.bad ++ ((List.enumFrom i objs).filter fun p => !acceptF64 upcast p.2) ∧
      (fastF64Loop caps upcast objs i st).errPending = false ∧
      (headersOk st → headersOk (fastF64Loop caps upcast objs i st)) := by
  induction objs with
  | nil => intro i st he; simp [fastF64Loop, List.enumFrom, he]
  | cons o rest ih =>
      intro i st he
      obtain ⟨hs1, hs2, hs3, hs4⟩ := fastF64Step_spec caps upcast i st o he
      obtain ⟨ih1, ih2, ih3, ih4⟩ := ih (i + 1) (fastF64Step caps upcast i st o) hs3
      rw [fastF64Loop]
      refine ⟨?_, ?_, ih3, fun h => ih4 (hs4 h)⟩
      · rw [ih1, hs1]
        by_cases ha : acceptF64 upcast o <;>
          simp [List.filter_cons, ha]
      · rw [ih2, hs2]
        by_cases ha : acceptF64 upcast o <;>
          simp [List.enumFrom, List.filter_cons, ha]

/-- Acceptance of the string encoder: strings only. -/
def acceptStr (o : PyObj) : Bool := o.isStr

/-- Row committed by the string encoder. -/
def encodeStr : PyObj → StrRow
  | .strV s => ⟨mkInfoField (2 * 8) (s.length + 1), s.length + 1, s ++ [0]⟩
  | _ => ⟨0, 0, []⟩

theorem fastStrStep_spec (caps : Nat → Nat) (i : Nat) (st : EncState StrRow)
    (o : PyObj) :
    (fastStrStep caps i st o).allRows =
        st.allRows ++ (if acceptStr o then [encodeStr o] else []) ∧
    (fastStrStep caps i st o).bad =
        st.bad ++ (if acceptStr o then [] else [(i, o)]) ∧
    (headersOk st → headersOk (fastStrStep caps i st o)) := by
  cases o
  case strV s =>
    obtain ⟨hr1, hr2, hr3, hr4⟩ :=
      condRotate_spec caps (st.curCap < st.nBytes + (8 * 2 + s.length + 1)) st
    obtain ⟨h1, h2, h4⟩ := pushRow_spec
      (if st.curCap < st.nBytes + (8 * 2 + s.length + 1) then st.rotate caps else st)
      (⟨mkInfoField (2 * 8) (s.length + 1), s.length + 1, s ++ [0]⟩ : StrRow)
      (8 * 2 + s.length + 1)
    refine ⟨?_, ?_, fun h => h4 (hr4 h)⟩
    · show ((if st.curCap < st.nBytes + (8 * 2 + s.length + 1) then st.rotate caps
        else st).pushRow ⟨mkInfoField (2 * 8) (s.length + 1), s.length + 1, s ++ [0]⟩
        (8 * 2 + s.length + 1)).allRows = _
      rw [h1, hr1]; simp [acceptStr, PyObj.isStr, encodeStr]
    · show ((if st.curCap < st.nBytes + (8 * 2 + s.length + 1) then st.rotate caps
        else st).pushRow ⟨mkInfoField (2 * 8) (s.length + 1), s.length + 1, s ++ [0]⟩
        (8 * 2 + s.length + 1)).bad = _
      rw [h2, hr2]; simp [acceptStr, PyObj.isStr]
  all_goals {
    refine ⟨?_, ?_, ?_⟩
    · show (st.quarantine i _).allRows = _
      rw [(quarantine_spec _ i _).1]; simp [acceptStr, PyObj.isStr]
    · show (st.quarantine i _).bad = _
      rw [(quarantine_spec _ i _).2.1]; simp [acceptStr, PyObj.isStr]
    · exact fun h => (quarantine_spec _ i _).2.2.2 h
  }

theorem fastStrLoop_spec (caps : Nat → Nat) (objs : List PyObj) :
    ∀ (i : Nat) (st : EncState StrRow),
      (fastStrLoop caps objs i st).allRows =
          st.allRows ++ (objs.filter acceptStr).map encodeStr ∧
      (fastStrLoop caps objs i st).bad =
          st.bad ++ ((List.enumFrom i objs).filter fun p => !acceptStr p.2) ∧
      (headersOk st → headersOk (fastStrLoop caps objs i st)) := by
  induction objs with
  | nil => intro i st; simp [fastStrLoop, List.enumFrom]
  | cons o rest ih =>
      intro i st
      obtain ⟨hs1, hs2, hs4⟩ := fastStrStep_spec caps i st o
      obtain ⟨ih1, ih2, ih4⟩ := ih (i + 1) (fastStrStep caps i st o)
      rw [fastStrLoop]
      refine ⟨?_, ?_, fun h => ih4 (hs4 h)⟩
      · rw [ih1, hs1]
        by_cases ha : acceptStr o <;>
          simp [List.filter_cons, ha]
      · rw [ih2, hs2]
        by_cases ha : acceptStr o <;>
          simp [List.enumFrom, List.filter_cons, ha]

theorem pyLongAsLongLong_fst (e e' : Bool) (v : Int) :
    (pyLongAsLongLong e v).1 = (pyLongAsLongLong e' v).1 := by
  by_cases hv : -(2 ^ 63) ≤ v ∧ v < 2 ^ 63
  · rw [pyLongAsLongLong_fits e v hv, pyLongAsLongLong_fits e' v hv]
  · rw [pyLongAsLongLong_over e v hv, pyLongAsLongLong_over e' v hv]

/-- Success, content and accumulated sizes of the field loop do not
depend on the incoming runtime error flag (only the outgoing flag
does). -/
theorem serializeFields_fst_indep (n : Nat) (pairs : List (Char × PyObj)) :
    ∀ (j rv : Nat) (e1 e2 : Bool),
      (serializeFields n pairs j rv e1).1 = (serializeFields n pairs j rv e2).1 := by
  induction pairs with
  | nil => intro j rv e1 e2; rfl
  | cons p rest ih =>
      intro j rv e1 e2
      obtain ⟨c, el⟩ := p
      by_cases hb : c = 'b'
      · subst hb
        cases el <;> simp only [serializeFields, if_pos rfl] <;> try rfl
        rw [ih (j + 1) rv e1 e2]
        simp
      · by_cases hi : c = 'i'
        · subst hi
          cases el <;>
            simp only [serializeFields, if_neg (by decide : ¬ ('i' = 'b')), if_pos rfl] <;>
            try rfl
          rename_i v
          rw [pyLongAsLongLong_fst e1 e2 v,
            ih (j + 1) rv (pyLongAsLongLong e1 v).2 (pyLongAsLongLong e2 v).2]
          simp
        · by_cases hf : c = 'f'
          · subst hf
            cases el <;>
              simp only [serializeFields, if_neg (by decide : ¬ ('f' = 'b')),
                if_neg (by decide : ¬ ('f' = 'i')), if_pos rfl] <;>
              try rfl
            rw [ih (j + 1) rv e1 e2]
            simp
          · by_cases hs : c = 's'
            · subst hs
              cases el <;>
                simp only [serializeFields, if_neg (by decide : ¬ ('s' = 'b')),
                  if_neg (by decide : ¬ ('s' = 'i')),
                  if_neg (by decide : ¬ ('s' = 'f')), if_pos rfl] <;>
                try rfl
              rename_i s
              rw [ih (j + 1) (rv + (s.length + 1)) e1 e2]
              simp
            · simp only [serializeFields, if_neg hb, if_neg hi, if_neg hf, if_neg hs]
              exact ih (j + 1) rv e1 e2

/-- Acceptance of the tuple encoder: a tuple of matching arity whose
fields all pass their type checks (the field loop succeeds). -/
def acceptTuple (tags : List Char) (n : Nat) : PyObj → Bool
  | .tupleV els =>
      decide (els.length = n) &&
        (serializeFields n (tags.zip els) 0 0 false).1.isSome
  | _ => false

/-- Row committed by the tuple encoder. -/
def encodeTuple (tags : List Char) (n : Nat) (varLenField : Bool) :
    PyObj → TupleRow
  | .tupleV els =>
      match (serializeFields n (tags.zip els) 0 0 false).1 with
      | some (ss, tl, rv) =>
          ⟨if varLenField then ss ++ [Slot.varLenSlot rv] else ss, tl⟩
      | none => ⟨[], []⟩
  | _ => ⟨[], []⟩

theorem fastMixedBody_spec (caps : Nat → Nat) (tags : List Char) (n : Nat)
    (varLen : Bool) (base : Nat) (i : Nat) (st : EncState TupleRow)
    (els : List PyObj) :
    (fastMixedBody caps tags n varLen base i st els).allRows =
        st.allRows ++
          (if (serializeFields n (tags.zip els) 0 0 false).1.isSome then
            [encodeTuple tags n varLen (PyObj.tupleV els)] else []) ∧
    (fastMixedBody caps tags n varLen base i st els).bad =
        st.bad ++
          (if (serializeFields n (tags.zip els) 0 0 false).1.isSome then []
            else [(i, PyObj.tupleV els)]) ∧
    (headersOk st → headersOk (fastMixedBody caps tags n varLen base i st els)) := by
  obtain ⟨hr1, hr2, hr3, hr4⟩ := condRotate_spec caps
    (st.curCap < st.nBytes +
      (if varLen then requiredBytesOf base tags els else base)) st
  simp only [fastMixedBody]
  rw [serializeFields_fst_indep n (tags.zip els) 0 0 _ false]
  cases hacc : (serializeFields n (tags.zip els) 0 0 false).1 with
  | some x =>
      obtain ⟨ss, tl, rv⟩ := x
      obtain ⟨h1, h2, h4⟩ := pushRow_spec
        ({ (if st.curCap < st.nBytes +
              (if varLen then requiredBytesOf base tags els else base)
            then st.rotate caps else st) with
          errPending := (serializeFields n (tags.zip els) 0 0
            (if st.curCap < st.nBytes +
                (if varLen then requiredBytesOf base tags els else base)
              then st.rotate caps else st).errPending).2 })
        (⟨if varLen then ss ++ [Slot.varLenSlot rv] else ss, tl⟩ : TupleRow)
        (if varLen then requiredBytesOf base tags els else base)
      refine ⟨?_, ?_, ?_⟩
      · rw [h1]
        have heq : ∀ (e : Bool), ({ (if st.curCap < st.nBytes +
              (if varLen then requiredBytesOf base tags els else base)
            then st.rotate caps else st) with
            errPending := e } : EncState TupleRow).allRows =
            (if st.curCap < st.nBytes +
              (if varLen then requiredBytesOf base tags els else base)
            then st.rotate caps else st).allRows := fun _ => rfl
        rw [heq, hr1]
        simp [encodeTuple, hacc]
      · rw [h2]
        have heq : ∀ (e : Bool), ({ (if st.curCap < st.nBytes +
              (if varLen then requiredBytesOf base tags els else base)
            then st.rotate caps else st) with
            errPending := e } : EncState TupleRow).bad =
            (if st.curCap < st.nBytes +
              (if varLen then requiredBytesOf base tags els else base)
            then st.rotate caps else st).bad := fun _ => rfl
        rw [heq, hr2]
        simp [hacc]
      · intro h
        exact h4 (hr4 h)
  | none =>
      refine ⟨?_, ?_, ?_⟩
      · rw [(quarantine_spec _ i _).1]
        have heq : ∀ (e : Bool), ({ (if st.curCap < st.nBytes +
              (if varLen then requiredBytesOf base tags els else base)
            then st.rotate caps else st) with
            errPending := e } : EncState TupleRow).allRows =
            (if st.curCap < st.nBytes +
              (if varLen then requiredBytesOf base tags els else base)
            then st.rotate caps else st).allRows := fun _ => rfl
        rw [heq, hr1]
        simp [hacc]
      · rw [(quarantine_spec _ i _).2.1]
        have heq : ∀ (e : Bool), ({ (if st.curCap < st.nBytes +
              (if varLen then requiredBytesOf base tags els else base)
            then st.rotate caps else st) with
            errPending := e } : EncState TupleRow).bad =
            (if st.curCap < st.nBytes +
              (if varLen then requiredBytesOf base tags els else base)
            then st.rotate caps else st).bad := fun _ => rfl
        rw [heq, hr2]
        simp [hacc]
      · intro h
        exact (quarantine_spec _ i _).2.2.2 (hr4 h)

theorem fastMixedStep_spec (caps : Nat → Nat) (tags : List Char) (n : Nat)
    (varLen : Bool) (base : Nat) (i : Nat) (st : EncState TupleRow)
    (o : PyObj) :
    (fastMixedStep caps tags n varLen base i st o).allRows =
        st.allRows ++
          (if acceptTuple tags n o then [encodeTuple tags n varLen o] else []) ∧
    (fastMixedStep caps tags n varLen base i st o).bad =
        st.bad ++ (if acceptTuple tags n o then [] else [(i, o)]) ∧
    (headersOk st → headersOk (fastMixedStep caps tags n varLen base i st o)) := by
  cases o
  case tupleV els =>
    by_cases hlen : els.length = n
    · rw [show fastMixedStep caps tags n varLen base i st (PyObj.tupleV els) =
        fastMixedBody caps tags n varLen base i st els from by
          simp [fastMixedStep, hlen]]
      obtain ⟨h1, h2, h4⟩ := fastMixedBody_spec caps tags n varLen base i st els
      refine ⟨?_, ?_, h4⟩
      · rw [h1]
        simp only [acceptTuple, decide_eq_true hlen, Bool.true_and]
      · rw [h2]
        simp only [acceptTuple, decide_eq_true hlen, Bool.true_and]
    · rw [show fastMixedStep caps tags n varLen base i st (PyObj.tupleV els) =
        st.quarantine i (PyObj.tupleV els) from by
          simp [fastMixedStep, hlen]]
      refine ⟨?_, ?_, ?_⟩
      · rw [(quarantine_spec _ i _).1]
        simp [acceptTuple, hlen]
      · rw [(quarantine_spec _ i _).2.1]
        simp [acceptTuple, hlen]
      · exact fun h => (quarantine_spec _ i _).2.2.2 h
  all_goals {
    refine ⟨?_, ?_, ?_⟩
    · show (st.quarantine i _).allRows = _
      rw [(quarantine_spec _ i _).1]; simp [acceptTuple]
    · show (st.quarantine i _).bad = _
      rw [(quarantine_spec _ i _).2.1]; simp [acceptTuple]
    · exact fun h => (quarantine_spec _ i _).2.2.2 h
  }

theorem fastMixedLoop_spec (caps : Nat → Nat) (tags : List Char) (n : Nat)
    (varLen : Bool) (base : Nat) (objs : List PyObj) :
    ∀ (i : Nat) (st : EncState TupleRow),
      (fastMixedLoop caps tags n varLen base objs i st).allRows =
          st.allRows ++
            (objs.filter (acceptTuple tags n)).map (encodeTuple tags n varLen) ∧
      (fastMixedLoop caps tags n varLen base objs i st).bad =
          st.bad ++
            ((List.enumFrom i objs).filter fun p => !acceptTuple tags n p.2) ∧
      (headersOk st → headersOk (fastMixedLoop caps tags n varLen base objs i st)) := by
  induction objs with
  | nil => intro i st; simp [fastMixedLoop, List.enumFrom]
  | cons o rest ih =>
      intro i st
      obtain ⟨hs1, hs2, hs4⟩ := fastMixedStep_spec caps tags n varLen base i st o
      obtain ⟨ih1, ih2, ih4⟩ :=
        ih (i + 1) (fastMixedStep caps tags n varLen base i st o)
      rw [fastMixedLoop]
      refine ⟨?_, ?_, fun h => ih4 (hs4 h)⟩
      · rw [ih1, hs1]
        by_cases ha : acceptTuple tags n o <;>
          simp [List.filter_cons, ha]
      · rw [ih2, hs2]
        by_cases ha : acceptTuple tags n o <;>
          simp [List.enumFrom, List.filter_cons, ha]

theorem fastBoolParallelize_spec (caps : Nat → Nat) (objs : List PyObj) :
    concatRows (fastBoolParallelize caps objs).1 =
        (objs.filter acceptBool).map encodeBool ∧
    (fastBoolParallelize caps objs).2 =
        (List.enumFrom 0 objs).filter (fun p => !acceptBool p.2) ∧
    ∀ p ∈ (fastBoolParallelize caps objs).1, p.header = p.rows.length := by
  by_cases h0 : objs.length = 0
  · have hnil : objs = [] := List.length_eq_zero.mp h0
    subst hnil
    refine ⟨rfl, rfl, ?_⟩
    intro p hp
    simp [fastBoolParallelize] at hp
  · rw [show fastBoolParallelize caps objs =
        ((fastBoolLoop caps objs 0 (EncState.init Int caps)).finish,
          (fastBoolLoop caps objs 0 (EncState.init Int caps)).bad) from by
      simp [fastBoolParallelize, h0]]
    obtain ⟨h1, h2, h4⟩ := fastBoolLoop_spec caps objs 0 (EncState.init Int caps)
    refine ⟨?_, ?_, ?_⟩
    · rw [finish_allRows, h1]
      simp [EncState.init, EncState.allRows, concatRows]
    · rw [h2]; simp [EncState.init]
    · have hok := h4 (headersOk_init Int caps)
      intro p hp
      have hp' := hp
      simp only [EncState.finish] at hp'
      rcases List.mem_append.mp hp' with h | h
      · exact hok.1 p h
      · rw [List.mem_singleton.mp h]; exact hok.2

theorem fastI64Parallelize_spec (caps : Nat → Nat) (upcast : Bool)
    (objs : List PyObj) :
    concatRows (fastI64Parallelize caps upcast objs).1.1 =
        (objs.filter (acceptI64 upcast)).map encodeI64 ∧
    (fastI64Parallelize caps upcast objs).1.2 =
        (List.enumFrom 0 objs).filter (fun p => !acceptI64 upcast p.2) ∧
    (fastI64Parallelize caps upcast objs).2 = false ∧
    ∀ p ∈ (fastI64Parallelize caps upcast objs).1.1, p.header = p.rows.length := by
  by_cases h0 : objs.length = 0
  · have hnil : objs = [] := List.length_eq_zero.mp h0
    subst hnil
    refine ⟨rfl, rfl, rfl, ?_⟩
    intro p hp
    simp [fastI64Parallelize] at hp
  · rw [show fastI64Parallelize caps upcast objs =
        (((fastI64Loop caps upcast objs 0 (EncState.init Int caps)).finish,
          (fastI64Loop caps upcast objs 0 (EncState.init Int caps)).bad),
          (fastI64Loop caps upcast objs 0 (EncState.init Int caps)).errPending) from by
      simp [fastI64Parallelize, h0]]
    obtain ⟨h1, h2, h3, h4⟩ :=
      fastI64Loop_spec caps upcast objs 0 (EncState.init Int caps) rfl
    refine ⟨?_, ?_, h3, ?_⟩
    · rw [finish_allRows, h1]
      simp [EncState.init, EncState.allRows, concatRows]
    · rw [h2]; simp [EncState.init]
    · have hok := h4 (headersOk_init Int caps)
      intro p hp
      have hp' := hp
      simp only [EncState.finish] at hp'
      rcases List.mem_append.mp hp' with h | h
      · exact hok.1 p h
      · rw [List.mem_singleton.mp h]; exact hok.2

theorem fastF64Parallelize_spec (caps : Nat → Nat) (upcast : Bool)
    (objs : List PyObj) :
    concatRows (fastF64Parallelize caps upcast objs).1.1 =
        (objs.filter (acceptF64 upcast)).map encodeF64 ∧
    (fastF64Parallelize caps upcast objs).1.2 =
        (List.enumFrom 0 objs).filter (fun p => !acceptF64 upcast p.2) ∧
    (fastF64Parallelize caps upcast objs).2 = false ∧
    ∀ p ∈ (fastF64Parallelize caps upcast objs).1.1, p.header = p.rows.length := by
  by_cases h0 : objs.length = 0
  · have hnil : objs = [] := List.length_eq_zero.mp h0
    subst hnil
    refine ⟨rfl, rfl, rfl, ?_⟩
    intro p hp
    simp [fastF64Parallelize] at hp
  · rw [show fastF64Parallelize caps upcast objs =
        (((fastF64Loop caps upcast objs 0 (EncState.init ℚ caps)).finish,
          (fastF64Loop caps upcast objs 0 (EncState.init ℚ caps)).bad),
          (fastF64Loop caps upcast objs 0 (EncState.init ℚ caps)).errPending) from by
      simp [fastF64Parallelize, h0]]
    obtain ⟨h1, h2, h3, h4⟩ :=
      fastF64Loop_spec caps upcast objs 0 (EncState.init ℚ caps) rfl
    refine ⟨?_, ?_, h3, ?_⟩
    · rw [finish_allRows, h1]
      simp [EncState.init, EncState.allRows, concatRows]
    · rw [h2]; simp [EncState.init]
    · have hok := h4 (headersOk_init ℚ caps)
      intro p hp
      have hp' := hp
      simp only [EncState.finish] at hp'
      rcases List.mem_append.mp hp' with h | h
      · exact hok.1 p h
      · rw [List.mem_singleton.mp h]; exact hok.2

theorem fastStrParallelize_spec (caps : Nat → Nat) (objs : List PyObj) :
    concatRows (fastStrParallelize caps objs).1 =
        (objs.filter acceptStr).map encodeStr ∧
    (fastStrParallelize caps objs).2 =
        (List.enumFrom 0 objs).filter (fun p => !acceptStr p.2) ∧
    ∀ p ∈ (fastStrParallelize caps objs).1, p.header = p.rows.length := by
  by_cases h0 : objs.length = 0
  · have hnil : objs = [] := List.length_eq_zero.mp h0
    subst hnil
    refine ⟨rfl, rfl, ?_⟩
    intro p hp
    simp [fastStrParallelize] at hp
  · rw [show fastStrParallelize caps objs =
        ((fastStrLoop caps objs 0 (EncState.init StrRow caps)).finish,
          (fastStrLoop caps objs 0 (EncState.init StrRow caps)).bad) from by
      simp [fastStrParallelize, h0]]
    obtain ⟨h1, h2, h4⟩ := fastStrLoop_spec caps objs 0 (EncState.init StrRow caps)
    refine ⟨?_, ?_, ?_⟩
    · rw [finish_allRows, h1]
      simp [EncState.init, EncState.allRows, concatRows]
    · rw [h2]; simp [EncState.init]
    · have hok := h4 (headersOk_init StrRow caps)
      intro p hp
      have hp' := hp
      simp only [EncState.finish] at hp'
      rcases List.mem_append.mp hp' with h | h
      · exact hok.1 p h
      · rw [List.mem_singleton.mp h]; exact hok.2

theorem fastMixed_spec (caps : Nat → Nat) (params : List PyType)
    (objs : List PyObj) :
    concatRows (fastMixedSimpleTypeTupleTransfer caps params objs).1.1 =
        (objs.filter
          (acceptTuple (makeTypeStr params) params.length)).map
          (encodeTuple (makeTypeStr params) params.length
            ((makeTypeStr params).contains 's')) ∧
    (fastMixedSimpleTypeTupleTransfer caps params objs).1.2 =
        (List.enumFrom 0 objs).filter
          (fun p => !acceptTuple (makeTypeStr params) params.length p.2) ∧
    ∀ p ∈ (fastMixedSimpleTypeTupleTransfer caps params objs).1.1,
      p.header = p.rows.length := by
  by_cases h0 : objs.length = 0
  · have hnil : objs = [] := List.length_eq_zero.mp h0
    subst hnil
    refine ⟨rfl, rfl, ?_⟩
    intro p hp
    simp [fastMixedSimpleTypeTupleTransfer] at hp
  · rw [show fastMixedSimpleTypeTupleTransfer caps params objs =
        (((fastMixedLoop caps (makeTypeStr params) params.length
            ((makeTypeStr params).contains 's')
            ((params.length + (if (makeTypeStr params).contains 's' then 1 else 0)) * 8)
            objs 0 (EncState.init TupleRow caps)).finish,
          (fastMixedLoop caps (makeTypeStr params) params.length
            ((makeTypeStr params).contains 's')
            ((params.length + (if (makeTypeStr params).contains 's' then 1 else 0)) * 8)
            objs 0 (EncState.init TupleRow caps)).bad),
          (fastMixedLoop caps (makeTypeStr params) params.length
            ((makeTypeStr params).contains 's')
            ((params.length + (if (makeTypeStr params).contains 's' then 1 else 0)) * 8)
            objs 0 (EncState.init TupleRow caps)).errPending) from by
      simp [fastMixedSimpleTypeTupleTransfer, h0]]
    obtain ⟨h1, h2, h4⟩ := fastMixedLoop_spec caps (makeTypeStr params)
      params.length ((makeTypeStr params).contains 's')
      ((params.length + (if (makeTypeStr params).contains 's' then 1 else 0)) * 8)
      objs 0 (EncState.init TupleRow caps)
    refine ⟨?_, ?_, ?_⟩
    · rw [finish_allRows, h1]
      simp [EncState.init, EncState.allRows, concatRows]
    · rw [h2]; simp [EncState.init]
    · have hok := h4 (headersOk_init TupleRow caps)
      intro p hp
      have hp' := hp
      simp only [EncState.finish] at hp'
      rcases List.mem_append.mp hp' with h | h
      · exact hok.1 p h
      · rw [List.mem_singleton.mp h]; exact hok.2

/-- C7: in the fast tuple-of-scalars encoder, the header word of every
produced partition equals the number of complete rows in its payload,
and the committed rows are exactly the encodings of the candidate
tuples all of whose fields type-check, in input order; a candidate with
any failing field contributes no row (the write cursor is rewound) and
is quarantined whole. -/
theorem c7_tuple_rewind_header (caps : Nat → Nat) (params : List PyType)
    (objs : List PyObj) :
    (∀ p ∈ (fastMixedSimpleTypeTupleTransfer caps params objs).1.1,
      p.header = p.rows.length) ∧
    concatRows (fastMixedSimpleTypeTupleTransfer caps params objs).1.1 =
        (objs.filter
          (acceptTuple (makeTypeStr params) params.length)).map
          (encodeTuple (makeTypeStr params) params.length
            ((makeTypeStr params).contains 's')) ∧
    (fastMixedSimpleTypeTupleTransfer caps params objs).1.2 =
        (List.enumFrom 0 objs).filter
          (fun p => !acceptTuple (makeTypeStr params) params.length p.2) := by
  obtain ⟨h1, h2, h3⟩ := fastMixed_spec caps params objs
  exact ⟨h3, h1, h2⟩

/-- C8: an integer that does not fit in 64 bits is quarantined by the
i64 fast encoder (and by the f64 fast encoder under autoUpcast) with
the runtime error cleared (the error flag is false at return), and the
call is not aborted: the committed rows are still the encodings of all
acceptable elements of the whole input. -/
theorem c8_overflow_quarantine (caps : Nat → Nat) (upcast : Bool)
    (objs : List PyObj) (ix : Nat) (v : Int)
    (hget : objs.get? ix = some (PyObj.intV v))
    (hov : ¬ (-(2 ^ 63) ≤ v ∧ v < 2 ^ 63)) :
    ((ix, PyObj.intV v) ∈ (fastI64Parallelize caps upcast objs).1.2 ∧
      (fastI64Parallelize caps upcast objs).2 = false ∧
      concatRows (fastI64Parallelize caps upcast objs).1.1 =
        (objs.filter (acceptI64 upcast)).map encodeI64) ∧
    ((ix, PyObj.intV v) ∈ (fastF64Parallelize caps true objs).1.2 ∧
      (fastF64Parallelize caps true objs).2 = false ∧
      concatRows (fastF64Parallelize caps true objs).1.1 =
        (objs.filter (acceptF64 true)).map encodeF64) := by
  have hmem : (ix, PyObj.intV v) ∈ List.enumFrom 0 objs := by
    have hg : objs[ix]? = some (PyObj.intV v) := by
      rw [List.get?_eq_getElem?] at hget
      exact hget
    have hm := (@List.mk_add_mem_enumFrom_iff_getElem? PyObj 0 ix
      (PyObj.intV v) objs).mpr hg
    simpa using hm
  obtain ⟨hi1, hi2, hi3, _⟩ := fastI64Parallelize_spec caps upcast objs
  obtain ⟨hf1, hf2, hf3, _⟩ := fastF64Parallelize_spec caps true objs
  refine ⟨⟨?_, hi3, hi1⟩, ⟨?_, hf3, hf1⟩⟩
  · rw [hi2]
    refine List.mem_filter.mpr ⟨hmem, ?_⟩
    simp only [acceptI64, fitsI64, decide_eq_false hov, Bool.not_false]
  · rw [hf2]
    refine List.mem_filter.mpr ⟨hmem, ?_⟩
    simp only [acceptF64, fitsI64, Bool.true_and, decide_eq_false hov,
      Bool.not_false]

/-- Witness for C8 at the input [1, 2^63, 3]: the oversized integer at
index 1 is quarantined while 1 and 3 are committed, and the error flag
is clear at return. -/
theorem c8_overflow_quarantine_witness :
    (1, PyObj.intV (2 ^ 63)) ∈
      (fastI64Parallelize (fun _ => 1000) false
        [PyObj.intV 1, PyObj.intV (2 ^ 63), PyObj.intV 3]).1.2 ∧
    (fastI64Parallelize (fun _ => 1000) false
      [PyObj.intV 1, PyObj.intV (2 ^ 63), PyObj.intV 3]).2 = false :=
  ⟨((c8_overflow_quarantine (fun _ => 1000) false
      [PyObj.intV 1, PyObj.intV (2 ^ 63), PyObj.intV 3] 1 (2 ^ 63)
      (by rfl) (by decide)).1).1,
    ((c8_overflow_quarantine (fun _ => 1000) false
      [PyObj.intV 1, PyObj.intV (2 ^ 63), PyObj.intV 3] 1 (2 ^ 63)
      (by rfl) (by decide)).1).2.1⟩

/-- C10: the integer field of the fast tuple encoder performs no 64-bit
overflow check: on the tuple (2^63,) against majority type (I64,), the
row is accepted with the slot holding the -1 that PyLong_AsLongLong
returned and the runtime error left pending, while the scalar i64
encoder quarantines the same integer. -/
theorem c10_tuple_int_overflow_committed :
    fastMixedSimpleTypeTupleTransfer (fun _ => 1000) [PyType.i64]
        [PyObj.tupleV [PyObj.intV (2 ^ 63)]] =
      (([⟨1, [⟨[Slot.i64Slot (-1)], []⟩]⟩], []), true) ∧
    fastI64Parallelize (fun _ => 1000) false [PyObj.intV (2 ^ 63)] =
      (([⟨0, []⟩], [(0, PyObj.intV (2 ^ 63))]), false) := by
  constructor <;> rfl

theorem mkInfoField_eq (off size : Nat) (ho : off < 2 ^ 32)
    (hs : size < 2 ^ 32) : mkInfoField off size = 2 ^ 32 * size + off := by
  have h1 : off % 2 ^ 64 = off := Nat.mod_eq_of_lt (lt_trans ho (by norm_num))
  have h2 : size * 2 ^ 32 % 2 ^ 64 = size * 2 ^ 32 := by
    refine Nat.mod_eq_of_lt ?_
    calc size * 2 ^ 32 < 2 ^ 32 * 2 ^ 32 :=
          (Nat.mul_lt_mul_right (by norm_num)).mpr hs
      _ = 2 ^ 64 := by norm_num
  rw [mkInfoField, h1, h2, Nat.lor_comm, Nat.mul_comm size,
    ← Nat.mul_add_lt_is_or ho size]

/-- Low 32 bits of the descriptor word: the offset. -/
theorem mkInfoField_low (off size : Nat) (ho : off < 2 ^ 32)
    (hs : size < 2 ^ 32) : mkInfoField off size % 2 ^ 32 = off := by
  rw [mkInfoField_eq off size ho hs, Nat.mul_add_mod, Nat.mod_eq_of_lt ho]

/-- High 32 bits of the descriptor word: the byte length including the
trailing NUL. -/
theorem mkInfoField_high (off size : Nat) (ho : off < 2 ^ 32)
    (hs : size < 2 ^ 32) : mkInfoField off size / 2 ^ 32 = size := by
  rw [mkInfoField_eq off size ho hs, Nat.mul_add_div (by norm_num),
    Nat.div_eq_of_lt ho, Nat.add_zero]

/-- Accumulated variable-length tail bytes contributed by the string
fields strictly before field index k (the running rowVarFieldSizes at
the start of field k). -/
def tailSizesBefore : List (Char × PyObj) → Nat → Nat
  | _, 0 => 0
  | [], _ + 1 => 0
  | (c, el) :: rest, k + 1 =>
      (if c = 's' then pyUnicodeGetSize el + 1 else 0) + tailSizesBefore rest k

/-- Descriptor words and tail NUL terminators produced by the field
loop: for a successful field serialization starting at field index j
with accumulated tail size rv, the slot of every string field at
relative index k is the descriptor word with offset
(n + 1 - (j + k)) * 8 + rv + tailSizesBefore and size length + 1, and
the tail byte just past the copied string bytes is 0. -/
theorem serializeFields_descriptor (n : Nat) :
    ∀ (pairs : List (Char × PyObj)) (j rv : Nat) (err : Bool)
      (ss : List Slot) (tl : List Nat) (rv' : Nat),
      (serializeFields n pairs j rv err).1 = some (ss, tl, rv') →
      (∀ p ∈ pairs, p.1 = 'b' ∨ p.1 = 'i' ∨ p.1 = 'f' ∨ p.1 = 's') →
      ∀ (k : Nat) (s : List Nat),
        pairs.get? k = some ('s', PyObj.strV s) →
        ss.get? k = some (Slot.descSlot (mkInfoField
          ((n + 1 - (j + k)) * 8 + (rv + tailSizesBefore pairs k))
          (s.length + 1))) ∧
        tl.get? (tailSizesBefore pairs k + s.length) = some 0 := by
  intro pairs
  induction pairs with
  | nil =>
      intro j rv err ss tl rv' hok htags k s hk
      simp at hk
  | cons p rest ih =>
      intro j rv err ss tl rv' hok htags k s hk
      obtain ⟨c, el⟩ := p
      have htags' : ∀ p ∈ rest, p.1 = 'b' ∨ p.1 = 'i' ∨ p.1 = 'f' ∨ p.1 = 's' :=
        fun p hp => htags p (List.mem_cons_of_mem _ hp)
      rcases htags (c, el) (List.mem_cons_self _ _) with hc | hc | hc | hc <;>
        simp only at hc <;> subst hc
      · -- tag b
        cases el <;> try exact Option.noConfusion hok
        rename_i b
        have hok2 : Option.map (fun x : List Slot × List Nat × Nat =>
            (Slot.i64Slot (if b then 1 else 0) :: x.1, x.2.1, x.2.2))
            (serializeFields n rest (j + 1) rv err).1 = some (ss, tl, rv') := hok
        cases hrec : (serializeFields n rest (j + 1) rv err).1 with
        | none => rw [hrec] at hok2; simp at hok2
        | some x =>
            obtain ⟨ss1, tl1, rva⟩ := x
            rw [hrec] at hok2
            simp only [Option.map_some'] at hok2
            have hok3 := Option.some.inj hok2
            injection hok3 with h1 h23
            injection h23 with h2 h3
            subst h1; subst h2; subst h3
            cases k with
            | zero => simp at hk
            | succ k =>
                have hk' : rest.get? k = some ('s', PyObj.strV s) := hk
                obtain ⟨ih1, ih2⟩ := ih (j + 1) rv err ss1 tl1 rva hrec htags' k s hk'
                constructor
                · show ss1.get? k = _
                  rw [ih1]
                  have harith : (n + 1 - (j + 1 + k)) = (n + 1 - (j + (k + 1))) := by
                    omega
                  simp [tailSizesBefore, harith]
                · show tl1.get? _ = _
                  have ht : tailSizesBefore (('b', PyObj.boolV b) :: rest) (k + 1) =
                      tailSizesBefore rest k := by simp [tailSizesBefore]
                  rw [ht]
                  exact ih2
      · -- tag i
        cases el <;> try exact Option.noConfusion hok
        rename_i v
        have hok2 : Option.map (fun x : List Slot × List Nat × Nat =>
            (Slot.i64Slot (pyLongAsLongLong err v).1 :: x.1, x.2.1, x.2.2))
            (serializeFields n rest (j + 1) rv (pyLongAsLongLong err v).2).1 =
            some (ss, tl, rv') := hok
        cases hrec : (serializeFields n rest (j + 1) rv (pyLongAsLongLong err v).2).1 with
        | none => rw [hrec] at hok2; simp at hok2
        | some x =>
            obtain ⟨ss1, tl1, rva⟩ := x
            rw [hrec] at hok2
            simp only [Option.map_some'] at hok2
            have hok3 := Option.some.inj hok2
            injection hok3 with h1 h23
            injection h23 with h2 h3
            subst h1; subst h2; subst h3
            cases k with
            | zero => simp at hk
            | succ k =>
                have hk' : rest.get? k = some ('s', PyObj.strV s) := hk
                obtain ⟨ih1, ih2⟩ := ih (j + 1) rv (pyLongAsLongLong err v).2
                  ss1 tl1 rva hrec htags' k s hk'
                constructor
                · show ss1.get? k = _
                  rw [ih1]
                  have harith : (n + 1 - (j + 1 + k)) = (n + 1 - (j + (k + 1))) := by
                    omega
                  simp [tailSizesBefore, harith]
                · show tl1.get? _ = _
                  have ht : tailSizesBefore (('i', PyObj.intV v) :: rest) (k + 1) =
                      tailSizesBefore rest k := by simp [tailSizesBefore]
                  rw [ht]
                  exact ih2
      · -- tag f
        cases el <;> try exact Option.noConfusion hok
        rename_i q
        have hok2 : Option.map (fun x : List Slot × List Nat × Nat =>
            (Slot.f64Slot q :: x.1, x.2.1, x.2.2))
            (serializeFields n rest (j + 1) rv err).1 = some (ss, tl, rv') := hok
        cases hrec : (serializeFields n rest (j + 1) rv err).1 with
        | none => rw [hrec] at hok2; simp at hok2
        | some x =>
            obtain ⟨ss1, tl1, rva⟩ := x
            rw [hrec] at hok2
            simp only [Option.map_some'] at hok2
            have hok3 := Option.some.inj hok2
            injection hok3 with h1 h23
            injection h23 with h2 h3
            subst h1; subst h2; subst h3
            cases k with
            | zero => simp at hk
            | succ k =>
                have hk' : rest.get? k = some ('s', PyObj.strV s) := hk
                obtain ⟨ih1, ih2⟩ := ih (j + 1) rv err ss1 tl1 rva hrec htags' k s hk'
                constructor
                · show ss1.get? k = _
                  rw [ih1]
                  have harith : (n + 1 - (j + 1 + k)) = (n + 1 - (j + (k + 1))) := by
                    omega
                  simp [tailSizesBefore, harith]
                · show tl1.get? _ = _
                  have ht : tailSizesBefore (('f', PyObj.floatV q) :: rest) (k + 1) =
                      tailSizesBefore rest k := by simp [tailSizesBefore]
                  rw [ht]
                  exact ih2
      · -- tag s
        cases el <;> try exact Option.noConfusion hok
        rename_i s0
        have hok2 : Option.map (fun x : List Slot × List Nat × Nat =>
            (Slot.descSlot (mkInfoField ((n + 1 - j) * 8 + rv) (s0.length + 1)) :: x.1,
              (s0 ++ [0]) ++ x.2.1, x.2.2))
            (serializeFields n rest (j + 1) (rv + (s0.length + 1)) err).1 =
            some (ss, tl, rv') := hok
        cases hrec : (serializeFields n rest (j + 1) (rv + (s0.length + 1)) err).1 with
        | none => rw [hrec] at hok2; simp at hok2
        | some x =>
            obtain ⟨ss1, tl1, rva⟩ := x
            rw [hrec] at hok2
            simp only [Option.map_some'] at hok2
            have hok3 := Option.some.inj hok2
            injection hok3 with h1 h23
            injection h23 with h2 h3
            subst h1; subst h2; subst h3
            cases k with
            | zero =>
                have hps : ('s', PyObj.strV s0) = ('s', PyObj.strV s) := by
                  simpa using hk
                have hs0 : s0 = s := by
                  injection hps with hps1 hps2
                  exact PyObj.strV.inj hps2
                subst hs0
                constructor
                · show some (Slot.descSlot (mkInfoField ((n + 1 - j) * 8 + rv)
                    (s0.length + 1))) = _
                  simp [tailSizesBefore]
                · show ((s0 ++ [0]) ++ tl1).get? _ = some 0
                  have h2 : tailSizesBefore (('s', PyObj.strV s0) :: rest) 0 = 0 := rfl
                  rw [h2, Nat.zero_add]
                  rw [List.get?_append (by simp)]
                  rw [List.get?_append_right (le_refl _)]
                  simp
            | succ k =>
                have hk' : rest.get? k = some ('s', PyObj.strV s) := hk
                obtain ⟨ih1, ih2⟩ := ih (j + 1) (rv + (s0.length + 1)) err
                  ss1 tl1 rva hrec htags' k s hk'
                have ht : tailSizesBefore (('s', PyObj.strV s0) :: rest) (k + 1) =
                    (s0.length + 1) + tailSizesBefore rest k := by
                  simp [tailSizesBefore, pyUnicodeGetSize]
                constructor
                · show ss1.get? k = _
                  rw [ih1, ht]
                  have harith1 : (n + 1 - (j + 1 + k)) = (n + 1 - (j + (k + 1))) := by
                    omega
                  have harith2 : rv + (s0.length + 1) + tailSizesBefore rest k =
                      rv + (s0.length + 1 + tailSizesBefore rest k) := by omega
                  rw [harith1, harith2]
                · show ((s0 ++ [0]) ++ tl1).get? _ = some 0
                  rw [ht]
                  rw [List.get?_append_right (by simp; omega)]
                  have harith : s0.length + 1 + tailSizesBefore rest k + s.length -
                      (s0 ++ [0]).length = tailSizesBefore rest k + s.length := by
                    simp; omega
                  rw [harith]
                  exact ih2

/-- C9: every string field written by the fast string encoder and by
the fast tuple encoder carries a descriptor word whose low 32 bits are
the offset (n + 1 - j) * 8 plus the running tail size before the field,
whose high 32 bits are the byte length including the trailing NUL, and
the tail byte at descriptor offset + length - 1 (relative to the slot,
i.e. just past the copied string bytes) is 0x00. For the scalar string
encoder n = 1 and j = 0, so the offset is 16 and the running tail size
is 0; the fit hypotheses reflect the 32-bit descriptor fields. -/
theorem c9_string_descriptors :
    (∀ (caps : Nat → Nat) (objs : List PyObj) (ix : Nat) (s : List Nat),
      objs.get? ix = some (PyObj.strV s) →
      s.length + 1 < 2 ^ 32 →
      encodeStr (PyObj.strV s) ∈ concatRows (fastStrParallelize caps objs).1 ∧
      (encodeStr (PyObj.strV s)).info % 2 ^ 32 = (1 + 1 - 0) * 8 + 0 ∧
      (encodeStr (PyObj.strV s)).info / 2 ^ 32 = s.length + 1 ∧
      (encodeStr (PyObj.strV s)).tail.get?
        (2 * 8 + (s.length + 1) - 1 - 2 * 8) = some 0) ∧
    (∀ (caps : Nat → Nat) (params : List PyType) (objs : List PyObj)
      (ix j : Nat) (els : List PyObj) (s : List Nat),
      (∀ t ∈ params, t = PyType.boolean ∨ t = PyType.i64 ∨ t = PyType.f64 ∨
        t = PyType.str) →
      objs.get? ix = some (PyObj.tupleV els) →
      acceptTuple (makeTypeStr params) params.length (PyObj.tupleV els) = true →
      params.get? j = some PyType.str →
      els.get? j = some (PyObj.strV s) →
      (params.length + 1 - j) * 8 +
        tailSizesBefore ((makeTypeStr params).zip els) j < 2 ^ 32 →
      s.length + 1 < 2 ^ 32 →
      encodeTuple (makeTypeStr params) params.length
          ((makeTypeStr params).contains 's') (PyObj.tupleV els) ∈
        concatRows (fastMixedSimpleTypeTupleTransfer caps params objs).1.1 ∧
      ∃ d, (encodeTuple (makeTypeStr params) params.length
          ((makeTypeStr params).contains 's') (PyObj.tupleV els)).slots.get? j =
            some (Slot.descSlot d) ∧
        d % 2 ^ 32 = (params.length + 1 - j) * 8 +
          tailSizesBefore ((makeTypeStr params).zip els) j ∧
        d / 2 ^ 32 = s.length + 1 ∧
        (encodeTuple (makeTypeStr params) params.length
          ((makeTypeStr params).contains 's') (PyObj.tupleV els)).tail.get?
            (tailSizesBefore ((makeTypeStr params).zip els) j + s.length) =
          some 0) := by
  constructor
  · intro caps objs ix s hget hfit
    obtain ⟨hrows, _, _⟩ := fastStrParallelize_spec caps objs
    refine ⟨?_, ?_, ?_, ?_⟩
    · rw [hrows]
      exact List.mem_map_of_mem encodeStr
        (List.mem_filter.mpr ⟨List.get?_mem hget, rfl⟩)
    · show mkInfoField (2 * 8) (s.length + 1) % 2 ^ 32 = _
      rw [mkInfoField_low (2 * 8) (s.length + 1) (by norm_num) hfit]
    · show mkInfoField (2 * 8) (s.length + 1) / 2 ^ 32 = _
      rw [mkInfoField_high (2 * 8) (s.length + 1) (by norm_num) hfit]
    · show (s ++ [0]).get? (2 * 8 + (s.length + 1) - 1 - 2 * 8) = some 0
      have harith : 2 * 8 + (s.length + 1) - 1 - 2 * 8 = s.length := by omega
      rw [harith, List.get?_append_right (le_refl _)]
      simp
  · intro caps params objs ix j els s hsimple hget hacc hpj helj hofit hsfit
    have hacc2 : (decide (els.length = params.length) &&
        (serializeFields params.length ((makeTypeStr params).zip els)
          0 0 false).1.isSome) = true := hacc
    rw [Bool.and_eq_true] at hacc2
    obtain ⟨x, hser⟩ := Option.isSome_iff_exists.mp hacc2.2
    obtain ⟨ss, tl, rv⟩ := x
    have htagj : (makeTypeStr params).get? j = some 's' := by
      rw [makeTypeStr, List.get?_map, hpj]
      rfl
    have hzip : ((makeTypeStr params).zip els).get? j =
        some ('s', PyObj.strV s) := by
      rw [List.get?_eq_getElem?]
      refine List.getElem?_zip_eq_some.mpr ⟨?_, ?_⟩
      · rw [← List.get?_eq_getElem?]; exact htagj
      · rw [← List.get?_eq_getElem?]; exact helj
    have htagsAll : ∀ p ∈ (makeTypeStr params).zip els,
        p.1 = 'b' ∨ p.1 = 'i' ∨ p.1 = 'f' ∨ p.1 = 's' := by
      intro p hp
      obtain ⟨c, el⟩ := p
      have hc : c ∈ makeTypeStr params := (List.mem_zip hp).1
      rw [makeTypeStr] at hc
      obtain ⟨t, ht, hft⟩ := List.mem_map.mp hc
      rcases hsimple t ht with h | h | h | h <;> subst h <;> rw [← hft] <;> simp
    obtain ⟨hdesc, htail⟩ := serializeFields_descriptor params.length
      ((makeTypeStr params).zip els) 0 0 false ss tl rv hser htagsAll j s hzip
    have henc : encodeTuple (makeTypeStr params) params.length
        ((makeTypeStr params).contains 's') (PyObj.tupleV els) =
        ⟨if (makeTypeStr params).contains 's' then ss ++ [Slot.varLenSlot rv]
          else ss, tl⟩ := by
      simp only [encodeTuple]
      rw [hser]
    have hjlt : j < ss.length := by
      rcases List.get?_eq_some.mp hdesc with ⟨h, _⟩
      exact h
    refine ⟨?_, ?_⟩
    · obtain ⟨hrows, _, _⟩ := fastMixed_spec caps params objs
      rw [hrows]
      exact List.mem_map_of_mem _
        (List.mem_filter.mpr ⟨List.get?_mem hget, hacc⟩)
    · refine ⟨mkInfoField ((params.length + 1 - (0 + j)) * 8 +
        (0 + tailSizesBefore ((makeTypeStr params).zip els) j)) (s.length + 1),
        ?_, ?_, ?_, ?_⟩
      · rw [henc]
        show (if (makeTypeStr params).contains 's' then ss ++ [Slot.varLenSlot rv]
          else ss).get? j = _
        by_cases hv : (makeTypeStr params).contains 's'
        · rw [if_pos hv, List.get?_append hjlt]
          exact hdesc
        · rw [if_neg hv]
          exact hdesc
      · have h0 : (params.length + 1 - (0 + j)) * 8 +
            (0 + tailSizesBefore ((makeTypeStr params).zip els) j) =
            (params.length + 1 - j) * 8 +
              tailSizesBefore ((makeTypeStr params).zip els) j := by omega
        rw [h0]
        exact mkInfoField_low _ _ hofit hsfit
      · have h0 : (params.length + 1 - (0 + j)) * 8 +
            (0 + tailSizesBefore ((makeTypeStr params).zip els) j) =
            (params.length + 1 - j) * 8 +
              tailSizesBefore ((makeTypeStr params).zip els) j := by omega
        rw [h0]
        exact mkInfoField_high _ _ hofit hsfit
      · rw [henc]
        exact htail

/-- Witness for C9 at a one-character string: the scalar string encoder
commits the row for "a", whose descriptor has offset 16 and length 2,
and whose tail ends in the NUL byte; the tuple encoder on ((97), "a")
against (I64, STR) places the descriptor of field 1 at offset
(2 + 1 - 1) * 8 = 16 with length 2 and a NUL-terminated tail. -/
theorem c9_string_descriptors_witness :
    (encodeStr (PyObj.strV [97]) ∈
        concatRows (fastStrParallelize (fun _ => 100) [PyObj.strV [97]]).1 ∧
      (encodeStr (PyObj.strV [97])).info % 2 ^ 32 = 16 ∧
      (encodeStr (PyObj.strV [97])).info / 2 ^ 32 = 2) ∧
    (∃ d, (encodeTuple (makeTypeStr [PyType.i64, PyType.str]) 2
        ((makeTypeStr [PyType.i64, PyType.str]).contains 's')
        (PyObj.tupleV [PyObj.intV 7, PyObj.strV [97]])).slots.get? 1 =
          some (Slot.descSlot d) ∧
      d % 2 ^ 32 = 16 ∧ d / 2 ^ 32 = 2) := by
  obtain ⟨hA, hB⟩ := c9_string_descriptors
  constructor
  · obtain ⟨h1, h2, h3, _⟩ := hA (fun _ => 100) [PyObj.strV [97]] 0 [97]
      rfl (by norm_num)
    exact ⟨h1, by simpa using h2, by simpa using h3⟩
  · obtain ⟨_, d, hd1, hd2, hd3, _⟩ := hB (fun _ => 100)
      [PyType.i64, PyType.str] [PyObj.tupleV [PyObj.intV 7, PyObj.strV [97]]]
      0 1 [PyObj.intV 7, PyObj.strV [97]] [97]
      (by
        intro t ht
        simp only [List.mem_cons, List.not_mem_nil, or_false] at ht
        rcases ht with h | h <;> subst h <;> simp)
      rfl (by rfl) rfl rfl (by decide) (by norm_num)
    refine ⟨d, hd1, ?_, hd3⟩
    rw [hd2]
    decide

/-! Slow transfer path (parallelizeAnyType, PythonContext.cc lines
464-519) with explicit reference-count accounting. -/

/-- Modelled from the spec (4.B step 1 and the glossary): classification
of a host value to a ground lattice type, used by the slow path and the
projector fallback (python::mapPythonClassToTuplexType lives outside
this translation unit): scalars map directly, tuples recurse
elementwise, mappings become dictionaries keyed on their first entry,
the empty mapping gives the designated empty constant. -/
def mapPythonClassToTuplexType : PyObj → PyType
  | .noneV => .nullValue
  | .boolV _ => .boolean
  | .intV _ => .i64
  | .floatV _ => .f64
  | .strV _ => .str
  | .tupleV els => .tuple (mapAll els)
  | .dictV [] => .emptyDict
  | .dictV ((k, v) :: _) =>
      .dict (mapPythonClassToTuplexType k) (mapPythonClassToTuplexType v)
  | .otherV => .pyobj
where
  mapAll : List PyObj → List PyType
  | [] => []
  | o :: rest => mapPythonClassToTuplexType o :: mapAll rest

/-- State of the slow transfer loop: the Row vector v (each entry the
(item, majType) pair handed to python::pythonToRow), the quarantine
list, and the reference-count ledger: increfs counts every Py_XINCREF
on a list item, acqBad the references held by objects placed on the
quarantine list, rel the references released by draining the
quarantine, and sigCleared whether any operation cleared the interrupt
flag (none in this path). -/
structure SlowState where
  v : List (PyObj × PyType)
  bad : List (Nat × PyObj)
  increfs : Nat
  acqBad : Nat
  rel : Nat
  sigCleared : Bool
deriving Repr

/-- Result of the slow path: an error dataset from context makeError,
or completion handing the Row vector to context parallelize. -/
inductive SlowResult where
  | errorDS : String → SlowState → SlowResult
  | completed : SlowState → SlowResult
deriving Repr

/-- Modelled from the spec: check_interrupted reads the interrupt flag
without clearing it; the flag observed at iteration i of the loop is
sig i. -/
def check_interrupted (sig : Nat → Bool) (i : Nat) : Bool := sig i

/-- Loop of parallelizeAnyType (PythonContext.cc lines 482-515): poll
the interrupt flag between rows; on interrupt release every quarantine
reference, clear the quarantine, discard the Row vector, and return the
"interrupted transfer" error dataset without touching the flag;
otherwise acquire a reference on the item, classify it, and either
convert it to a Row or quarantine it (keeping the acquired
reference). -/
def parallelizeAnyTypeLoop (classify : PyObj → PyType) (sig : Nat → Bool)
    (majType : PyType) : List PyObj → Nat → SlowState → SlowResult
  | [], _, st => .completed st
  | item :: rest, i, st =>
      if check_interrupted sig i then
        .errorDS "interrupted transfer"
          { st with rel := st.rel + st.bad.length, bad := [], v := [] }
      else
        let st1 := { st with increfs := st.increfs + 1 }
        let t := classify item
        if isSubOptionType t majType then
          parallelizeAnyTypeLoop classify sig majType rest (i + 1)
            { st1 with v := st1.v ++ [(item, majType)] }
        else
          parallelizeAnyTypeLoop classify sig majType rest (i + 1)
            { st1 with bad := st1.bad ++ [(i, item)], acqBad := st1.acqBad + 1 }

/-- Translation of parallelizeAnyType (PythonContext.cc lines 464-519):
starts from the quarantine state left by the orchestrator (empty at
every call site) and a zeroed ledger. -/
def parallelizeAnyType (classify : PyObj → PyType) (sig : Nat → Bool)
    (majType : PyType) (objs : List PyObj) : SlowResult :=
  parallelizeAnyTypeLoop classify sig majType objs 0 ⟨[], [], 0, 0, 0, false⟩

theorem slowLoop_interrupt (classify : PyObj → PyType) (sig : Nat → Bool)
    (majType : PyType) :
    ∀ (objs : List PyObj) (i : Nat) (st : SlowState),
      (∃ j, j < objs.length ∧ sig (i + j) = true) →
      st.acqBad = st.bad.length + st.rel →
      st.sigCleared = false →
      ∃ st', parallelizeAnyTypeLoop classify sig majType objs i st =
          .errorDS "interrupted transfer" st' ∧
        st'.bad = [] ∧ st'.v = [] ∧ st'.acqBad = st'.rel ∧
        st'.sigCleared = false := by
  intro objs
  induction objs with
  | nil =>
      intro i st hj
      obtain ⟨j, hjl, _⟩ := hj
      exact absurd hjl (by simp)
  | cons item rest ih =>
      intro i st hj hinv hsc
      by_cases hs : sig i = true
      · refine ⟨{ st with rel := st.rel + st.bad.length, bad := [], v := [] },
          ?_, rfl, rfl, ?_, hsc⟩
        · rw [parallelizeAnyTypeLoop]
          rw [if_pos (by simpa [check_interrupted] using hs)]
        · show st.acqBad = st.rel + st.bad.length
          omega
      · obtain ⟨j, hjl, hsj⟩ := hj
        have hj' : ∃ j', j' < rest.length ∧ sig (i + 1 + j') = true := by
          cases j with
          | zero => exact absurd (by simpa using hsj) hs
          | succ j' =>
              refine ⟨j', by simpa using hjl, ?_⟩
              have : i + 1 + j' = i + (j' + 1) := by omega
              rw [this]
              exact hsj
        rw [parallelizeAnyTypeLoop,
          if_neg (by simpa [check_interrupted] using hs)]
        by_cases hacc : isSubOptionType (classify item) majType = true
        · rw [if_pos hacc]
          exact ih (i + 1) _ hj' (by simpa using hinv) hsc
        · rw [if_neg hacc]
          refine ih (i + 1) _ hj' ?_ hsc
          show st.acqBad + 1 = (st.bad ++ [(i, item)]).length + st.rel
          simp
          omega

/-- C6: if the interrupt flag is observed set at some point of the slow
transfer, the encoder returns an error dataset carrying exactly the
message "interrupted transfer", the quarantine list is drained with
every owned reference released (the released count equals the acquired
count), the partial Row vector is discarded, and the interrupt flag is
not cleared. -/
theorem c6_interrupted_transfer (classify : PyObj → PyType)
    (sig : Nat → Bool) (majType : PyType) (objs : List PyObj) (k : Nat)
    (hk : k < objs.length) (hsig : sig k = true) :
    ∃ st', parallelizeAnyType classify sig majType objs =
        .errorDS "interrupted transfer" st' ∧
      st'.bad = [] ∧ st'.v = [] ∧ st'.acqBad = st'.rel ∧
      st'.sigCleared = false := by
  refine slowLoop_interrupt classify sig majType objs 0 _ ⟨k, hk, ?_⟩ rfl rfl
  simpa using hsig

/-- Witness for C6: interrupt observed at index 1 of a two-element
transfer. -/
theorem c6_interrupted_transfer_witness :
    ∃ st', parallelizeAnyType mapPythonClassToTuplexType
        (fun j => decide (j = 1)) PyType.i64
        [PyObj.intV 1, PyObj.intV 2] =
        .errorDS "interrupted transfer" st' ∧
      st'.bad = [] ∧ st'.v = [] ∧ st'.acqBad = st'.rel ∧
      st'.sigCleared = false :=
  c6_interrupted_transfer mapPythonClassToTuplexType
    (fun j => decide (j = 1)) PyType.i64
    [PyObj.intV 1, PyObj.intV 2] 1 (by decide) (by decide)

theorem slowLoop_complete (classify : PyObj → PyType) (sig : Nat → Bool)
    (majType : PyType) :
    ∀ (objs : List PyObj) (i : Nat) (st : SlowState),
      (∀ j, j < objs.length → sig (i + j) = false) →
      ∃ st', parallelizeAnyTypeLoop classify sig majType objs i st =
          .completed st' ∧
        st'.v = st.v ++ (objs.filter
          (fun o => isSubOptionType (classify o) majType)).map
            (fun o => (o, majType)) ∧
        st'.bad = st.bad ++ ((List.enumFrom i objs).filter
          (fun p => !isSubOptionType (classify p.2) majType)) ∧
        st'.rel = st.rel ∧
        st'.acqBad = st.acqBad + ((objs.filter
          (fun o => !isSubOptionType (classify o) majType)).length) ∧
        st'.increfs = st.increfs + objs.length ∧
        st'.sigCleared = st.sigCleared := by
  intro objs
  induction objs with
  | nil =>
      intro i st hns
      exact ⟨st, rfl, by simp, by simp [List.enumFrom], rfl, by simp, by simp, rfl⟩
  | cons item rest ih =>
      intro i st hns
      have hs : sig i = false := by simpa using hns 0 (by simp)
      have hns' : ∀ j, j < rest.length → sig (i + 1 + j) = false := by
        intro j hjl
        have : i + 1 + j = i + (j + 1) := by omega
        rw [this]
        exact hns (j + 1) (by simpa using hjl)
      rw [parallelizeAnyTypeLoop,
        if_neg (by simp [check_interrupted, hs])]
      by_cases hacc : isSubOptionType (classify item) majType = true
      · rw [if_pos hacc]
        obtain ⟨st', h1, h2, h3, h4, h5, h6, h7⟩ := ih (i + 1) _ hns'
        refine ⟨st', h1, ?_, ?_, h4, ?_, ?_, h7⟩
        · rw [h2]; simp [List.filter_cons, hacc]
        · rw [h3]; simp [List.enumFrom, List.filter_cons, hacc]
        · rw [h5]; simp [List.filter_cons, hacc]
        · rw [h6]; simp; omega
      · rw [if_neg hacc]
        obtain ⟨st', h1, h2, h3, h4, h5, h6, h7⟩ := ih (i + 1) _ hns'
        have haccf : isSubOptionType (classify item) majType = false :=
          Bool.not_eq_true _ ▸ (by simpa using hacc)
        refine ⟨st', h1, ?_, ?_, h4, ?_, ?_, h7⟩
        · rw [h2]; simp [List.filter_cons, haccf]
        · rw [h3]; simp [List.enumFrom, List.filter_cons, haccf]
        · rw [h5]; simp [List.filter_cons, haccf]; omega
        · rw [h6]; simp; omega

/-! String-keyed-dictionary encoder (strDictParallelize,
PythonContext.cc lines 520-621). Strings are lists of code points;
a host dictionary is a list of key/value pairs with distinct keys. -/

/-- PyDict_GetItemString: the value stored under the given string key
(borrowed reference), modelled as the first entry whose key is exactly
that string. -/
def dictGetItemString (kvs : List (PyObj × PyObj)) (c : List Nat) :
    Option PyObj :=
  (kvs.find? fun kv =>
    match kv.1 with
    | PyObj.strV s => decide (s = c)
    | _ => false).map Prod.snd

/-- Column-extraction loop (PythonContext.cc lines 562-578): fetch every
column in order, substituting None for a missing one; returns the tuple
items and the number of missing columns (each missing column appends
one quarantine entry in the source). -/
def extractItems (kvs : List (PyObj × PyObj)) :
    List (List Nat) → List PyObj × Nat
  | [] => ([], 0)
  | c :: cs =>
      let r := extractItems kvs cs
      match dictGetItemString kvs c with
      | some item => (item :: r.1, r.2)
      | none => (PyObj.noneV :: r.1, r.2 + 1)

/-- One iteration of the strDictParallelize loop (PythonContext.cc lines
546-615): non-dictionaries are silently skipped (the loop body is a
single if with no else); a dictionary is quarantined when its size
differs from the row type arity, once per missing column otherwise, or
when the converted row's type differs from the row type; otherwise the
row is committed, rotating first when capacity() < numBytesSerialized +
allocMinSize with allocMinSize = 100 (the byte cursor advances by
serializedLength). -/
def strDictStep {ρ : Type} (pythonToRow : PyObj → ρ) (getRowType : ρ → PyType)
    (serializedLength : ρ → Nat) (caps : Nat → Nat) (rowType : PyType)
    (columns : List (List Nat)) (i : Nat) (st : EncState ρ) (obj : PyObj) :
    EncState ρ :=
  match obj with
  | .dictV kvs =>
      if kvs.length ≠ rowType.parameters.length then st.quarantine i obj
      else
        let r := extractItems kvs columns
        if r.2 ≠ 0 then { st with bad := st.bad ++ List.replicate r.2 (i, obj) }
        else
          let row := pythonToRow (PyObj.tupleV r.1)
          if PyType.beq (getRowType row) rowType then
            let st1 := if st.curCap < st.nBytes + 100 then st.rotate caps else st
            st1.pushRow row (serializedLength row)
          else st.quarantine i obj
  | _ => st

/-- Loop of strDictParallelize over the remaining elements. -/
def strDictLoop {ρ : Type} (pythonToRow : PyObj → ρ) (getRowType : ρ → PyType)
    (serializedLength : ρ → Nat) (caps : Nat → Nat) (rowType : PyType)
    (columns : List (List Nat)) :
    List PyObj → Nat → EncState ρ → EncState ρ
  | [], _, st => st
  | obj :: rest, i, st =>
      strDictLoop pythonToRow getRowType serializedLength caps rowType columns
        rest (i + 1)
        (strDictStep pythonToRow getRowType serializedLength caps rowType
          columns i st obj)

/-- Translation of strDictParallelize (PythonContext.cc lines 520-621);
Row, pythonToRow, getRowType and serializedLength are parameters since
the Row class lives outside this translation unit. -/
def strDictParallelize {ρ : Type} (pythonToRow : PyObj → ρ)
    (getRowType : ρ → PyType) (serializedLength : ρ → Nat)
    (caps : Nat → Nat) (rowType : PyType) (columns : List (List Nat))
    (objs : List PyObj) : List (Partn ρ) × List (Nat × PyObj) :=
  if objs.length = 0 then ([], [])
  else
    let st := strDictLoop pythonToRow getRowType serializedLength caps rowType
      columns objs 0 (EncState.init ρ caps)
    (st.finish, st.bad)

/-- Acceptance of the dict encoder: a dictionary of the right arity with
every column present whose converted row has exactly the row type. -/
def acceptDict {ρ : Type} (pythonToRow : PyObj → ρ) (getRowType : ρ → PyType)
    (rowType : PyType) (columns : List (List Nat)) : PyObj → Bool
  | .dictV kvs =>
      decide (kvs.length = rowType.parameters.length) &&
      decide ((extractItems kvs columns).2 = 0) &&
      PyType.beq
        (getRowType (pythonToRow (PyObj.tupleV (extractItems kvs columns).1)))
        rowType
  | _ => false

/-- Committed row of an accepted dictionary. -/
def encodeDict {ρ : Type} (pythonToRow : PyObj → ρ)
    (columns : List (List Nat)) : PyObj → ρ
  | .dictV kvs => pythonToRow (PyObj.tupleV (extractItems kvs columns).1)
  | _ => pythonToRow (PyObj.tupleV [])

/-- Quarantine entries contributed by one element of the dict encoder:
none for a non-dictionary (silently skipped), one for an arity or row
type mismatch, one per missing column otherwise. -/
def dictBadEntries {ρ : Type} (pythonToRow : PyObj → ρ)
    (getRowType : ρ → PyType) (rowType : PyType) (columns : List (List Nat))
    (i : Nat) (obj : PyObj) : List (Nat × PyObj) :=
  match obj with
  | .dictV kvs =>
      if kvs.length ≠ rowType.parameters.length then [(i, obj)]
      else if (extractItems kvs columns).2 ≠ 0 then
        List.replicate (extractItems kvs columns).2 (i, obj)
      else if PyType.beq
          (getRowType (pythonToRow (PyObj.tupleV (extractItems kvs columns).1)))
          rowType then []
      else [(i, obj)]
  | _ => []

theorem strDictStep_spec {ρ : Type} (pythonToRow : PyObj → ρ)
    (getRowType : ρ → PyType) (serializedLength : ρ → Nat)
    (caps : Nat → Nat) (rowType : PyType) (columns : List (List Nat))
    (i : Nat) (st : EncState ρ) (o : PyObj) :
    (strDictStep pythonToRow getRowType serializedLength caps rowType columns
        i st o).allRows =
      st.allRows ++
        (if acceptDict pythonToRow getRowType rowType columns o then
          [encodeDict pythonToRow columns o] else []) ∧
    (strDictStep pythonToRow getRowType serializedLength caps rowType columns
        i st o).bad =
      st.bad ++ dictBadEntries pythonToRow getRowType rowType columns i o ∧
    (headersOk st →
      headersOk (strDictStep pythonToRow getRowType serializedLength caps
        rowType columns i st o)) := by
  cases o
  case dictV kvs =>
    by_cases hlen : kvs.length = rowType.parameters.length
    · by_cases hmiss : (extractItems kvs columns).2 = 0
      · by_cases hty : PyType.beq
            (getRowType (pythonToRow
              (PyObj.tupleV (extractItems kvs columns).1))) rowType = true
        · obtain ⟨hr1, hr2, _, hr4⟩ :=
            condRotate_spec caps (st.curCap < st.nBytes + 100) st
          obtain ⟨h1, h2, h4⟩ := pushRow_spec
            (if st.curCap < st.nBytes + 100 then st.rotate caps else st)
            (pythonToRow (PyObj.tupleV (extractItems kvs columns).1))
            (serializedLength
              (pythonToRow (PyObj.tupleV (extractItems kvs columns).1)))
          have hred : strDictStep pythonToRow getRowType serializedLength caps
              rowType columns i st (PyObj.dictV kvs) =
              (if st.curCap < st.nBytes + 100 then st.rotate caps else st).pushRow
                (pythonToRow (PyObj.tupleV (extractItems kvs columns).1))
                (serializedLength
                  (pythonToRow (PyObj.tupleV (extractItems kvs columns).1))) := by
            rw [strDictStep]
            rw [if_neg (by simpa using hlen), if_neg (by simpa using hmiss),
              if_pos hty]
          rw [hred]
          refine ⟨?_, ?_, fun h => h4 (hr4 h)⟩
          · rw [h1, hr1, show acceptDict pythonToRow getRowType rowType columns
              (PyObj.dictV kvs) = true from by
                simp [acceptDict, hlen, hmiss, hty]]
            simp [encodeDict]
          · rw [h2, hr2, show dictBadEntries pythonToRow getRowType rowType
              columns i (PyObj.dictV kvs) = [] from by
                simp [dictBadEntries, hlen, hmiss, hty]]
            simp
        · have hred : strDictStep pythonToRow getRowType serializedLength caps
              rowType columns i st (PyObj.dictV kvs) =
              st.quarantine i (PyObj.dictV kvs) := by
            rw [strDictStep]
            rw [if_neg (by simpa using hlen), if_neg (by simpa using hmiss),
              if_neg hty]
          rw [hred]
          obtain ⟨q1, q2, _, q4⟩ := quarantine_spec st i (PyObj.dictV kvs)
          refine ⟨?_, ?_, q4⟩
          · rw [q1, show acceptDict pythonToRow getRowType rowType columns
              (PyObj.dictV kvs) = false from by
                simp [acceptDict, hlen, hmiss]
                exact Bool.not_eq_true _ ▸ hty]
            simp
          · rw [q2, show dictBadEntries pythonToRow getRowType rowType columns
              i (PyObj.dictV kvs) = [(i, PyObj.dictV kvs)] from by
                simp [dictBadEntries, hlen, hmiss, hty]]
      · have hred : strDictStep pythonToRow getRowType serializedLength caps
            rowType columns i st (PyObj.dictV kvs) =
            { st with bad := st.bad ++ List.replicate (extractItems kvs columns).2 (i, PyObj.dictV kvs) } := by
          rw [strDictStep]
          rw [if_neg (by simpa using hlen), if_pos (by simpa using hmiss)]
        rw [hred]
        refine ⟨?_, ?_, fun h => h⟩
        · rw [show acceptDict pythonToRow getRowType rowType columns
            (PyObj.dictV kvs) = false from by simp [acceptDict, hmiss]]
          simp [EncState.allRows]
        · rw [show dictBadEntries pythonToRow getRowType rowType columns i
            (PyObj.dictV kvs) =
            List.replicate (extractItems kvs columns).2
              (i, PyObj.dictV kvs) from by simp [dictBadEntries, hlen, hmiss]]
    · have hred : strDictStep pythonToRow getRowType serializedLength caps
          rowType columns i st (PyObj.dictV kvs) =
          st.quarantine i (PyObj.dictV kvs) := by
        rw [strDictStep]
        rw [if_pos (by simpa using hlen)]
      rw [hred]
      obtain ⟨q1, q2, _, q4⟩ := quarantine_spec st i (PyObj.dictV kvs)
      refine ⟨?_, ?_, q4⟩
      · rw [q1, show acceptDict pythonToRow getRowType rowType columns
          (PyObj.dictV kvs) = false from by simp [acceptDict, hlen]]
        simp
      · rw [q2, show dictBadEntries pythonToRow getRowType rowType columns i
          (PyObj.dictV kvs) = [(i, PyObj.dictV kvs)] from by
            simp [dictBadEntries, hlen]]
  all_goals
    exact ⟨by simp [strDictStep, acceptDict], by simp [strDictStep, dictBadEntries],
      fun h => by simpa [strDictStep] using h⟩

theorem strDictLoop_spec {ρ : Type} (pythonToRow : PyObj → ρ)
    (getRowType : ρ → PyType) (serializedLength : ρ → Nat)
    (caps : Nat → Nat) (rowType : PyType) (columns : List (List Nat))
    (objs : List PyObj) :
    ∀ (i : Nat) (st : EncState ρ),
      (strDictLoop pythonToRow getRowType serializedLength caps rowType
          columns objs i st).allRows =
        st.allRows ++
          (objs.filter (acceptDict pythonToRow getRowType rowType columns)).map
            (encodeDict pythonToRow columns) ∧
      (strDictLoop pythonToRow getRowType serializedLength caps rowType
          columns objs i st).bad =
        st.bad ++ (List.enumFrom i objs).flatMap
          (fun p => dictBadEntries pythonToRow getRowType rowType columns
            p.1 p.2) ∧
      (headersOk st →
        headersOk (strDictLoop pythonToRow getRowType serializedLength caps
          rowType columns objs i st)) := by
  induction objs with
  | nil => intro i st; simp [strDictLoop, List.enumFrom]
  | cons o rest ih =>
      intro i st
      obtain ⟨hs1, hs2, hs4⟩ := strDictStep_spec pythonToRow getRowType
        serializedLength caps rowType columns i st o
      obtain ⟨ih1, ih2, ih4⟩ := ih (i + 1)
        (strDictStep pythonToRow getRowType serializedLength caps rowType
          columns i st o)
      rw [strDictLoop]
      refine ⟨?_, ?_, fun h => ih4 (hs4 h)⟩
      · rw [ih1, hs1]
        by_cases ha : acceptDict pythonToRow getRowType rowType columns o <;>
          simp [List.filter_cons, ha]
      · rw [ih2, hs2]
        simp [List.enumFrom]

theorem strDictParallelize_spec {ρ : Type} (pythonToRow : PyObj → ρ)
    (getRowType : ρ → PyType) (serializedLength : ρ → Nat)
    (caps : Nat → Nat) (rowType : PyType) (columns : List (List Nat))
    (objs : List PyObj) :
    concatRows (strDictParallelize pythonToRow getRowType serializedLength
        caps rowType columns objs).1 =
      (objs.filter (acceptDict pythonToRow getRowType rowType columns)).map
        (encodeDict pythonToRow columns) ∧
    (strDictParallelize pythonToRow getRowType serializedLength caps rowType
        columns objs).2 =
      (List.enumFrom 0 objs).flatMap
        (fun p => dictBadEntries pythonToRow getRowType rowType columns
          p.1 p.2) ∧
    ∀ p ∈ (strDictParallelize pythonToRow getRowType serializedLength caps
        rowType columns objs).1, p.header = p.rows.length := by
  by_cases h0 : objs.length = 0
  · have hnil : objs = [] := List.length_eq_zero.mp h0
    subst hnil
    refine ⟨rfl, rfl, ?_⟩
    intro p hp
    simp [strDictParallelize] at hp
  · rw [show strDictParallelize pythonToRow getRowType serializedLength caps
        rowType columns objs =
        ((strDictLoop pythonToRow getRowType serializedLength caps rowType
            columns objs 0 (EncState.init ρ caps)).finish,
          (strDictLoop pythonToRow getRowType serializedLength caps rowType
            columns objs 0 (EncState.init ρ caps)).bad) from by
      simp [strDictParallelize, h0]]
    obtain ⟨h1, h2, h4⟩ := strDictLoop_spec pythonToRow getRowType
      serializedLength caps rowType columns objs 0 (EncState.init ρ caps)
    refine ⟨?_, ?_, ?_⟩
    · rw [finish_allRows, h1]
      simp [EncState.init, EncState.allRows, concatRows]
    · rw [h2]; simp [EncState.init]
    · have hok := h4 (headersOk_init ρ caps)
      intro p hp
      have hp' := hp
      simp only [EncState.finish] at hp'
      rcases List.mem_append.mp hp' with h | h
      · exact hok.1 p h
      · rw [List.mem_singleton.mp h]; exact hok.2

/-! Column projector (inferColumnsFromDictObjects, PythonContext.cc
lines 898-1010) and the parallelize dispatch with its end-of-call
quarantine drain (lines 621-761). -/

/-- Modelled from the spec: python::Type::isDictionaryType holds for the
dictionary constructor and for the two dictionary constants (the source
guards the string-dict branch with isDictionaryType and explicit
inequality to both constants). -/
def PyType.isDictionaryType : PyType → Bool
  | .dict _ _ => true
  | .emptyDict => true
  | .genericDict => true
  | _ => false

/-- Modelled from the spec: key type of a dictionary type; only reached
under the guard excluding the constants, so other types are
irrelevant. -/
def PyType.keyType : PyType → PyType
  | .dict k _ => k
  | _ => .unknown

/-- Modelled from the spec: list type test. -/
def PyType.isListType : PyType → Bool
  | .listT _ => true
  | _ => false

/-- Modelled from the spec: python::tupleElementsHaveSimpleTypes — every
tuple parameter is one of BOOLEAN, I64, F64, STRING. -/
def tupleElementsHaveSimpleTypes (t : PyType) : Bool :=
  t.parameters.all fun p =>
    match p with
    | .boolean => true
    | .i64 => true
    | .f64 => true
    | .str => true
    | _ => false

/-- Per-key accumulator of the projector sample scan: occurrence count
and the values collected in encounter order (the counts and cols maps
of inferColumnsFromDictObjects; the C++ unordered_map iteration order
is unspecified and modelled as first-seen order). -/
def bumpKey (acc : List (List Nat × (Nat × List PyObj))) (k : List Nat)
    (v : PyObj) : List (List Nat × (Nat × List PyObj)) :=
  if (acc.find? fun kv => decide (kv.1 = k)).isSome then
    acc.map fun kv =>
      if kv.1 = k then (kv.1, (kv.2.1 + 1, kv.2.2 ++ [v])) else kv
  else acc ++ [(k, (1, [v]))]

/-- One dictionary entry of the sample scan: only string keys are
counted. -/
def collectEntry (acc : List (List Nat × (Nat × List PyObj)))
    (kv : PyObj × PyObj) : List (List Nat × (Nat × List PyObj)) :=
  match kv.1 with
  | .strV s => bumpKey acc s kv.2
  | _ => acc

/-- Sample scan of the projector (PythonContext.cc lines 910-937):
returns the per-key accumulator and num_dicts, the number of
dictionaries among the sampled elements. -/
def collectDictCols (sample : List PyObj) :
    List (List Nat × (Nat × List PyObj)) × Nat :=
  sample.foldl
    (fun acc item =>
      match item with
      | PyObj.dictV kvs => (kvs.foldl collectEntry acc.1, acc.2 + 1)
      | _ => acc)
    ([], 0)

/-- The message of the runtime_error thrown by the projector fallback
(PythonContext.cc line 986). -/
def projectorFailureMsg : String :=
  "type inference from dictionary objects failed. Please provide manually a schema."

/-- Translation of inferColumnsFromDictObjects (PythonContext.cc lines
898-1010): count string keys over the sample prefix and keep the keys
whose count meets ceil(normalThreshold * num_dicts), inferring each
kept column's type from its collected values (inferType is external,
passed as colInfer). When no key qualifies, fall back to the first
dictionary whose keys are all strings, classifying its values directly;
with no such dictionary the source throws runtime_error, surfaced here
as Except.error. -/
def inferColumnsFromDictObjects (classify : PyObj → PyType)
    (colInfer : List PyObj → PyType) (numSample : Nat) (nu : ℚ)
    (objs : List PyObj) : Except String (List (List Nat × PyType)) :=
  let r := collectDictCols (objs.take numSample)
  let kept := r.1.filter fun kv =>
    decide ((⌈nu * (r.2 : ℚ)⌉ : ℤ) ≤ (kv.2.1 : ℤ))
  let m := kept.map fun kv => (kv.1, colInfer kv.2.2)
  if m.isEmpty then
    match objs.find? (fun o =>
      match o with
      | PyObj.dictV kvs => kvs.all fun kv => kv.1.isStr
      | _ => false) with
    | some (PyObj.dictV kvs) =>
        Except.ok (kvs.map fun kv =>
          (match kv.1 with | PyObj.strV s => s | _ => [], classify kv.2))
    | _ => Except.error projectorFailureMsg
  else Except.ok m

/-- Dataset kind produced by one parallelize call: a data dataset or an
error dataset carrying its message. -/
inductive DSKind where
  | data : DSKind
  | errorDS : String → DSKind
deriving Repr, DecidableEq

/-- Observable outcome of one parallelize call: the dataset kind, the
quarantine list as populated by the chosen encoder and after the
end-of-call drain, and the reference ledger for quarantined objects
(references acquired together with a quarantine entry versus references
released by any drain). -/
structure OrchOut where
  kind : DSKind
  badBefore : List (Nat × PyObj)
  badAfter : List (Nat × PyObj)
  acqBad : Nat
  relBad : Nat
deriving Repr

/-- End-of-call drain (PythonContext.cc lines 744-754): a non-empty
quarantine list is logged and then destroyed by
_badParallelizeObjects.clear(), which frees the (index, PyObject*)
tuples without any Py_XDECREF — no reference is released, so the
release counter is unchanged. -/
def drainBad (kind : DSKind) (bad : List (Nat × PyObj)) (acq rel : Nat) :
    OrchOut :=
  ⟨kind, bad, [], acq, rel⟩

/-- Dispatch to the slow path: both outcomes of parallelizeAnyType are
datasets of the call (error dataset on interrupt, data otherwise); the
slow loop acquires one reference per quarantined object and its ledger
is carried into the outcome. -/
def slowDispatch (classify : PyObj → PyType) (sig : Nat → Bool)
    (mt : PyType) (objs : List PyObj) : Except String OrchOut :=
  match parallelizeAnyType classify sig mt objs with
  | .errorDS msg st => .ok (drainBad (.errorDS msg) st.bad st.acqBad st.rel)
  | .completed st => .ok (drainBad .data st.bad st.acqBad st.rel)

/-- Translation of PythonContext::parallelize (PythonContext.cc lines
621-761) from the point where the majority type is fixed (explicit
schema decoding and inferType are upstream of this translation unit):
dispatch on the majority type, then drain the quarantine list. External
components are parameters: caps (the driver allocator), upcast
(AUTO_UPCAST_NUMBERS), classify (python::mapPythonClassToTuplexType as
used by the slow path; the modelled version below instantiates it),
colInfer (inferType applied to one collected column), desc
(python::Type::desc), pythonToRow, getRowType and serializedLength (the
Row class), sig (the interrupt flag schedule), nu
(NORMALCASE_THRESHOLD) and numSample (sampleSize). The fast encoders
quarantine borrowed pointers, acquiring no reference. An uncaught C++
exception surfaces as Except.error. -/
def parallelize {ρ : Type} (caps : Nat → Nat) (upcast : Bool)
    (classify : PyObj → PyType) (colInfer : List PyObj → PyType)
    (desc : PyType → String) (pythonToRow : PyObj → ρ)
    (getRowType : ρ → PyType) (serializedLength : ρ → Nat)
    (sig : Nat → Bool) (nu : ℚ) (numSample : Nat)
    (majType : PyType) (columns0 : List (List Nat)) (objs : List PyObj) :
    Except String OrchOut :=
  if (majType.isDictionaryType && !(PyType.beq majType .emptyDict) &&
      !(PyType.beq majType .genericDict)) &&
      PyType.beq majType.keyType .str then
    match inferColumnsFromDictObjects classify colInfer numSample nu objs with
    | .error e => .error e
    | .ok dictTypes =>
        let columns :=
          if columns0.isEmpty then dictTypes.map Prod.fst else columns0
        let types := columns.map fun c =>
          match dictTypes.find? fun kv => decide (kv.1 = c) with
          | some kv => kv.2
          | none => PyType.pyobj
        let mt := PyType.makeTupleType types
        let r := strDictParallelize pythonToRow getRowType serializedLength
          caps mt columns objs
        .ok (drainBad .data r.2 0 0)
  else if PyType.beq majType .boolean then
    .ok (drainBad .data (fastBoolParallelize caps objs).2 0 0)
  else if PyType.beq majType .i64 then
    .ok (drainBad .data (fastI64Parallelize caps upcast objs).1.2 0 0)
  else if PyType.beq majType .f64 then
    .ok (drainBad .data (fastF64Parallelize caps upcast objs).1.2 0 0)
  else if PyType.beq majType .str then
    .ok (drainBad .data (fastStrParallelize caps objs).2 0 0)
  else if majType.isTupleType then
    if tupleElementsHaveSimpleTypes majType then
      .ok (drainBad .data
        (fastMixedSimpleTypeTupleTransfer caps majType.parameters objs).1.2
        0 0)
    else slowDispatch classify sig majType objs
  else if majType.isDictionaryType || PyType.beq majType .genericDict then
    slowDispatch classify sig majType objs
  else if majType.isOptionType then slowDispatch classify sig majType objs
  else if PyType.beq majType .nullValue then
    slowDispatch classify sig majType objs
  else if majType.isListType then slowDispatch classify sig majType objs
  else if PyType.beq majType .pyobj then slowDispatch classify sig majType objs
  else
    .ok (drainBad (.errorDS ("unsupported type '" ++ desc majType ++
      "' found, could not transfer data to backend")) [] 0 0)

theorem slowDispatch_ne_error (classify : PyObj → PyType) (sig : Nat → Bool)
    (mt : PyType) (objs : List PyObj) (e : String) :
    slowDispatch classify sig mt objs ≠ Except.error e := by
  rw [slowDispatch]
  cases parallelizeAnyType classify sig mt objs <;> simp

theorem inferColumns_error_msg (classify : PyObj → PyType)
    (colInfer : List PyObj → PyType) (numSample : Nat) (nu : ℚ)
    (objs : List PyObj) (e : String)
    (h : inferColumnsFromDictObjects classify colInfer numSample nu objs =
      Except.error e) : e = projectorFailureMsg := by
  simp only [inferColumnsFromDictObjects] at h
  split at h
  · split at h
    · exact absurd h (by simp)
    · injection h with h'
      exact h'.symm
  · exact absurd h (by simp)

/-- C2: refuted (code bug). The claim says every quarantined object
holds exactly one acquired reference and that by call end the acquired
and released counts balance. On the slow path (majority type
Option(i64), input list [1, "x"]) the loop acquires one reference with
the quarantined string, the call completes as a data dataset, and the
end-of-call drain (_badParallelizeObjects.clear(), PythonContext.cc
line 753) empties the quarantine without releasing anything: one
reference acquired, zero released. The equality below computes the
whole call and exhibits the unbalanced ledger (acqBad = 1, relBad = 0),
alongside the drained list. -/
theorem c2_quarantine_refcount_bug :
    parallelize (fun _ => 100) false mapPythonClassToTuplexType
      (fun _ => PyType.unknown) (fun _ => "") (fun _ => ())
      (fun _ => PyType.tuple []) (fun _ => 0) (fun _ => false) 1 1
      (PyType.option PyType.i64) [] [PyObj.intV 1, PyObj.strV [120]] =
      Except.ok ⟨DSKind.data, [(1, PyObj.strV [120])], [], 1, 0⟩ ∧
    (1 : Nat) ≠ 0 := ⟨rfl, by decide⟩

/-- C5 counterexample: the claim says every per-call failure of
parallelize, including the dict column projector failing to infer any
schema, becomes an error dataset returned normally. With a string-keyed
dictionary schema and the input [1] (no dictionary at all in the list),
the projector finds no qualifying column and no all-string-keyed
dictionary to fall back on, and the runtime_error thrown at
PythonContext.cc line 986 escapes parallelize uncaught — the call
raises instead of returning an error dataset. -/
theorem c5_counterexample :
    parallelize (fun _ => 100) false mapPythonClassToTuplexType
      (fun _ => PyType.unknown) (fun _ => "") (fun _ => ())
      (fun _ => PyType.tuple []) (fun _ => 0) (fun _ => false) 1 1
      (PyType.dict PyType.str PyType.i64) [] [PyObj.intV 1] =
      Except.error projectorFailureMsg := rfl

/-- C5 (amended): every failure escaping a parallelize call as an
exception is the projector fallback failure, carrying exactly the
message "type inference from dictionary objects failed. Please provide
manually a schema."; every other per-call outcome, on every dispatch
branch, is a dataset (data or error dataset) returned normally. -/
theorem c5_exception_amended {ρ : Type} (caps : Nat → Nat) (upcast : Bool)
    (classify : PyObj → PyType) (colInfer : List PyObj → PyType)
    (desc : PyType → String) (pythonToRow : PyObj → ρ)
    (getRowType : ρ → PyType) (serializedLength : ρ → Nat)
    (sig : Nat → Bool) (nu : ℚ) (numSample : Nat)
    (majType : PyType) (columns0 : List (List Nat)) (objs : List PyObj)
    (e : String)
    (h : parallelize caps upcast classify colInfer desc pythonToRow
      getRowType serializedLength sig nu numSample majType columns0 objs =
      Except.error e) : e = projectorFailureMsg := by
  rw [parallelize] at h
  by_cases hc1 : ((majType.isDictionaryType && !(PyType.beq majType .emptyDict) &&
      !(PyType.beq majType .genericDict)) &&
      PyType.beq majType.keyType .str) = true
  · rw [if_pos hc1] at h
    split at h
    · rename_i heq
      injection h with h'
      exact h'.symm.trans
        (inferColumns_error_msg classify colInfer numSample nu objs _ heq)
    · exact absurd h (by simp)
  · rw [if_neg hc1] at h
    by_cases hc2 : PyType.beq majType .boolean = true
    · rw [if_pos hc2] at h; exact absurd h (by simp)
    rw [if_neg hc2] at h
    by_cases hc3 : PyType.beq majType .i64 = true
    · rw [if_pos hc3] at h; exact absurd h (by simp)
    rw [if_neg hc3] at h
    by_cases hc4 : PyType.beq majType .f64 = true
    · rw [if_pos hc4] at h; exact absurd h (by simp)
    rw [if_neg hc4] at h
    by_cases hc5 : PyType.beq majType .str = true
    · rw [if_pos hc5] at h; exact absurd h (by simp)
    rw [if_neg hc5] at h
    by_cases hc6 : majType.isTupleType = true
    · rw [if_pos hc6] at h
      by_cases hc7 : tupleElementsHaveSimpleTypes majType = true
      · rw [if_pos hc7] at h; exact absurd h (by simp)
      · rw [if_neg hc7] at h
        exact absurd h (slowDispatch_ne_error _ _ _ _ _)
    rw [if_neg hc6] at h
    by_cases hc8 : (majType.isDictionaryType || PyType.beq majType .genericDict) = true
    · rw [if_pos hc8] at h
      exact absurd h (slowDispatch_ne_error _ _ _ _ _)
    rw [if_neg hc8] at h
    by_cases hc9 : majType.isOptionType = true
    · rw [if_pos hc9] at h
      exact absurd h (slowDispatch_ne_error _ _ _ _ _)
    rw [if_neg hc9] at h
    by_cases hc10 : PyType.beq majType .nullValue = true
    · rw [if_pos hc10] at h
      exact absurd h (slowDispatch_ne_error _ _ _ _ _)
    rw [if_neg hc10] at h
    by_cases hc11 : majType.isListType = true
    · rw [if_pos hc11] at h
      exact absurd h (slowDispatch_ne_error _ _ _ _ _)
    rw [if_neg hc11] at h
    by_cases hc12 : PyType.beq majType .pyobj = true
    · rw [if_pos hc12] at h
      exact absurd h (slowDispatch_ne_error _ _ _ _ _)
    rw [if_neg hc12] at h
    exact absurd h (by simp)

theorem length_filter_enumFrom {α : Type} (f : Nat × α → Bool)
    (g : α → Bool) (hf : ∀ p, f p = g p.2) (l : List α) :
    ∀ i, ((List.enumFrom i l).filter f).length = (l.filter g).length := by
  induction l with
  | nil => intro i; rfl
  | cons a as ih =>
      intro i
      have hfa : f (i, a) = g a := hf (i, a)
      by_cases hq : g a = true
      · simp [List.enumFrom, List.filter_cons, hfa, hq, ih]
      · have hq' : g a = false := by simpa using hq
        simp [List.enumFrom, List.filter_cons, hfa, hq', ih]

theorem length_filter_three {α : Type} (p q : α → Bool) (l : List α)
    (himp : ∀ a, p a = true → q a = true) :
    (l.filter p).length + (l.filter fun a => !p a && q a).length +
      (l.filter fun a => !q a).length = l.length := by
  induction l with
  | nil => rfl
  | cons a as ih =>
      by_cases hp : p a = true
      · have hq := himp a hp
        simp [List.filter_cons, hp, hq]
        omega
      · have hp' : p a = false := by simpa using hp
        by_cases hq : q a = true
        · simp [List.filter_cons, hp', hq]
          omega
        · have hq' : q a = false := by simpa using hq
          simp [List.filter_cons, hp', hq']
          omega

theorem acceptDict_isDict {ρ : Type} (pythonToRow : PyObj → ρ)
    (getRowType : ρ → PyType) (rowType : PyType) (columns : List (List Nat))
    (o : PyObj)
    (h : acceptDict pythonToRow getRowType rowType columns o = true) :
    o.isDict = true := by
  cases o <;> first
    | rfl
    | exact absurd h (by simp [acceptDict])

/-- C4 counterexample: the claim says every encoder path emits exactly
N − k rows when k indices are quarantined. The dict-as-tuple path
silently skips non-dictionary elements (the loop body at
PythonContext.cc line 549 is a single if with no else): on the input
[a string-keyed dict matching the row type, the integer 42] the run
commits 1 row and quarantines nothing, while N − k = 2 − 0 = 2. -/
theorem c4_counterexample :
    concatRows (strDictParallelize (fun _ => ())
        (fun _ => PyType.tuple [PyType.i64]) (fun _ => 8) (fun _ => 100)
        (PyType.tuple [PyType.i64]) [[97]]
        [PyObj.dictV [(PyObj.strV [97], PyObj.intV 1)], PyObj.intV 42]).1 =
      [()] ∧
    (strDictParallelize (fun _ => ())
        (fun _ => PyType.tuple [PyType.i64]) (fun _ => 8) (fun _ => 100)
        (PyType.tuple [PyType.i64]) [[97]]
        [PyObj.dictV [(PyObj.strV [97], PyObj.intV 1)], PyObj.intV 42]).2 =
      [] ∧
    ([PyObj.dictV [(PyObj.strV [97], PyObj.intV 1)], PyObj.intV 42].length =
      2 ∧ (1 : Nat) ≠ 2 - 0) :=
  ⟨rfl, rfl, rfl, by decide⟩

/-- C4 (amended): on the two fast scalar paths for booleans and
strings, the two fast numeric paths, the fast tuple path and the
uninterrupted slow path, a run over N elements commits exactly the
accepted elements in input order across partition boundaries (the row
list is literally the filter of the input mapped through its encoding)
and the partition row count is N minus the quarantine count. On the
dict-as-tuple path the committed rows are likewise the accepted
dictionaries in input order, but non-dictionary elements are neither
committed nor quarantined, so the counts satisfy
rows + rejected dictionaries + non-dictionaries = N instead. -/
theorem c4_order_amended :
    (∀ (caps : Nat → Nat) (objs : List PyObj),
      concatRows (fastBoolParallelize caps objs).1 =
        (objs.filter acceptBool).map encodeBool ∧
      (concatRows (fastBoolParallelize caps objs).1).length =
        objs.length - ((fastBoolParallelize caps objs).2).length) ∧
    (∀ (caps : Nat → Nat) (upcast : Bool) (objs : List PyObj),
      concatRows (fastI64Parallelize caps upcast objs).1.1 =
        (objs.filter (acceptI64 upcast)).map encodeI64 ∧
      (concatRows (fastI64Parallelize caps upcast objs).1.1).length =
        objs.length - ((fastI64Parallelize caps upcast objs).1.2).length) ∧
    (∀ (caps : Nat → Nat) (upcast : Bool) (objs : List PyObj),
      concatRows (fastF64Parallelize caps upcast objs).1.1 =
        (objs.filter (acceptF64 upcast)).map encodeF64 ∧
      (concatRows (fastF64Parallelize caps upcast objs).1.1).length =
        objs.length - ((fastF64Parallelize caps upcast objs).1.2).length) ∧
    (∀ (caps : Nat → Nat) (objs : List PyObj),
      concatRows (fastStrParallelize caps objs).1 =
        (objs.filter acceptStr).map encodeStr ∧
      (concatRows (fastStrParallelize caps objs).1).length =
        objs.length - ((fastStrParallelize caps objs).2).length) ∧
    (∀ (caps : Nat → Nat) (params : List PyType) (objs : List PyObj),
      concatRows (fastMixedSimpleTypeTupleTransfer caps params objs).1.1 =
        (objs.filter
          (acceptTuple (makeTypeStr params) params.length)).map
          (encodeTuple (makeTypeStr params) params.length
            ((makeTypeStr params).contains 's')) ∧
      (concatRows (fastMixedSimpleTypeTupleTransfer caps params objs).1.1).length =
        objs.length -
          ((fastMixedSimpleTypeTupleTransfer caps params objs).1.2).length) ∧
    (∀ (ρ : Type) (pythonToRow : PyObj → ρ) (getRowType : ρ → PyType)
        (serializedLength : ρ → Nat) (caps : Nat → Nat) (rowType : PyType)
        (columns : List (List Nat)) (objs : List PyObj),
      concatRows (strDictParallelize pythonToRow getRowType serializedLength
          caps rowType columns objs).1 =
        (objs.filter (acceptDict pythonToRow getRowType rowType columns)).map
          (encodeDict pythonToRow columns) ∧
      (concatRows (strDictParallelize pythonToRow getRowType serializedLength
          caps rowType columns objs).1).length +
        (objs.filter (fun o =>
          !acceptDict pythonToRow getRowType rowType columns o &&
            o.isDict)).length +
        (objs.filter (fun o => !o.isDict)).length = objs.length) ∧
    (∀ (classify : PyObj → PyType) (sig : Nat → Bool) (majType : PyType)
        (objs : List PyObj),
      (∀ j, j < objs.length → sig j = false) →
      ∃ st, parallelizeAnyType classify sig majType objs = .completed st ∧
        st.v = (objs.filter
          (fun o => isSubOptionType (classify o) majType)).map
            (fun o => (o, majType)) ∧
        st.v.length = objs.length - st.bad.length) := by
  refine ⟨?_, ?_, ?_, ?_, ?_, ?_, ?_⟩
  · intro caps objs
    obtain ⟨h1, h2, _⟩ := fastBoolParallelize_spec caps objs
    refine ⟨h1, ?_⟩
    rw [h1, h2, List.length_map,
      length_filter_enumFrom (fun p => !acceptBool p.2)
        (fun o => !acceptBool o) (fun p => rfl) objs 0]
    have := length_filter_not acceptBool objs
    omega
  · intro caps upcast objs
    obtain ⟨h1, h2, _, _⟩ := fastI64Parallelize_spec caps upcast objs
    refine ⟨h1, ?_⟩
    rw [h1, h2, List.length_map,
      length_filter_enumFrom (fun p => !acceptI64 upcast p.2)
        (fun o => !acceptI64 upcast o) (fun p => rfl) objs 0]
    have := length_filter_not (acceptI64 upcast) objs
    omega
  · intro caps upcast objs
    obtain ⟨h1, h2, _, _⟩ := fastF64Parallelize_spec caps upcast objs
    refine ⟨h1, ?_⟩
    rw [h1, h2, List.length_map,
      length_filter_enumFrom (fun p => !acceptF64 upcast p.2)
        (fun o => !acceptF64 upcast o) (fun p => rfl) objs 0]
    have := length_filter_not (acceptF64 upcast) objs
    omega
  · intro caps objs
    obtain ⟨h1, h2, _⟩ := fastStrParallelize_spec caps objs
    refine ⟨h1, ?_⟩
    rw [h1, h2, List.length_map,
      length_filter_enumFrom (fun p => !acceptStr p.2)
        (fun o => !acceptStr o) (fun p => rfl) objs 0]
    have := length_filter_not acceptStr objs
    omega
  · intro caps params objs
    obtain ⟨h1, h2, _⟩ := fastMixed_spec caps params objs
    refine ⟨h1, ?_⟩
    rw [h1, h2, List.length_map,
      length_filter_enumFrom
        (fun p => !acceptTuple (makeTypeStr params) params.length p.2)
        (fun o => !acceptTuple (makeTypeStr params) params.length o)
        (fun p => rfl) objs 0]
    have := length_filter_not
      (acceptTuple (makeTypeStr params) params.length) objs
    omega
  · intro ρ pythonToRow getRowType serializedLength caps rowType columns objs
    obtain ⟨h1, _, _⟩ := strDictParallelize_spec pythonToRow getRowType
      serializedLength caps rowType columns objs
    refine ⟨h1, ?_⟩
    rw [h1, List.length_map]
    exact length_filter_three _ _ objs
      (acceptDict_isDict pythonToRow getRowType rowType columns)
  · intro classify sig majType objs hns
    obtain ⟨st', h1, h2, h3, _, _, _, _⟩ :=
      slowLoop_complete classify sig majType objs 0
        ⟨[], [], 0, 0, 0, false⟩ (by simpa using hns)
    refine ⟨st', h1, by simpa using h2, ?_⟩
    rw [h2, h3]
    simp only [List.nil_append, List.length_map]
    rw [length_filter_enumFrom
      (fun p => !isSubOptionType (classify p.2) majType)
      (fun o => !isSubOptionType (classify o) majType)
      (fun p => rfl) objs 0]
    have := length_filter_not
      (fun o => isSubOptionType (classify o) majType) objs
    omega

/-- Witness for C4 (amended): the uninterrupted slow conjunct at the
majority type Option(i64) on the list [1, "x"]. -/
theorem c4_order_amended_witness :
    ∃ st, parallelizeAnyType mapPythonClassToTuplexType (fun _ => false)
        (PyType.option PyType.i64) [PyObj.intV 1, PyObj.strV [120]] =
        .completed st ∧
      st.v = ([PyObj.intV 1, PyObj.strV [120]].filter
        (fun o => isSubOptionType (mapPythonClassToTuplexType o)
          (PyType.option PyType.i64))).map
          (fun o => (o, PyType.option PyType.i64)) ∧
      st.v.length = [PyObj.intV 1, PyObj.strV [120]].length -
        st.bad.length :=
  c4_order_amended.2.2.2.2.2.2 mapPythonClassToTuplexType (fun _ => false)
    (PyType.option PyType.i64) [PyObj.intV 1, PyObj.strV [120]]
    (fun j hj => rfl)

/-- Witness for C5 (amended): the projector failure input instantiates
the hypothesis. -/
theorem c5_exception_amended_witness :
    "type inference from dictionary objects failed. Please provide manually a schema." =
      projectorFailureMsg :=
  c5_exception_amended (fun _ => 100) false mapPythonClassToTuplexType
    (fun _ => PyType.unknown) (fun _ => "") (fun _ => ())
    (fun _ => PyType.tuple []) (fun _ => 0) (fun _ => false) 1 1
    (PyType.dict PyType.str PyType.i64) [] [PyObj.intV 1] _ rfl

end Tuplex
